import Mathlib

/-! R-Car Gen3 THS thermal sensor driver (`drivers/thermal/rcar_gen3_thermal.c`):
a shallow embedding of the driver and theorems about it.

Conventions of the embedding.

* A C `int` is a Lean `Int`; every signed operation of the source is followed
  by `s32`, the reduction to the 32-bit two's-complement range (the kernel is
  built with `-fno-strict-overflow`, so signed arithmetic wraps).
* A C `u32` is a Lean `Int` in `[0, 2^32)`; every unsigned operation is
  followed by `u32`, the reduction modulo `2^32`.  Register contents are `Nat`.
* C division truncates toward zero: `Int.tdiv`.  Division by zero is undefined
  in C; the embedding keeps Lean's quotient `0` there, and the theorems about a
  quotient by a slope or by a difference of calibration codes assume or fix a
  nonzero divisor.
* `x << 7` on an `int` is multiplication by `128` followed by `s32`;
  `x >> 7` on an `int` is the arithmetic shift, i.e. floor division by `128`.
* A channel context is passed by value to the functions that take a pointer to
  it; the controller refers to its channels by their index in its table.
* The events visible outside the driver (register accesses, sleeps, zone
  notifications, lock and power-management calls) are recorded in a trace.
-/

namespace RcarGen3Thermal

/-! ## Machine integers -/

/-- Reduction of an integer to the range of a C `int` (two's complement, 32 bits). -/
def s32 (x : Int) : Int := (x + 2147483648) % 4294967296 - 2147483648

/-- Reduction of an integer to the range of a C `u32`. -/
def u32 (x : Int) : Int := x % 4294967296

/-- The value fits a C `int`. -/
def fits_s32 (x : Int) : Prop := -2147483648 ≤ x ∧ x ≤ 2147483647

instance (x : Int) : Decidable (fits_s32 x) := by unfold fits_s32; infer_instance

/-! ## Constants of the source -/

def REG_GEN3_IRQSTR : Nat := 0x04
def REG_GEN3_IRQMSK : Nat := 0x08
def REG_GEN3_IRQCTL : Nat := 0x0C
def REG_GEN3_IRQEN : Nat := 0x10
def REG_GEN3_IRQTEMP1 : Nat := 0x14
def REG_GEN3_IRQTEMP2 : Nat := 0x18
def REG_GEN3_IRQTEMP3 : Nat := 0x1C
def REG_GEN3_CTSR : Nat := 0x20
def REG_GEN3_THCTR : Nat := 0x20
def REG_GEN3_TEMP : Nat := 0x28

/-- Modelled from the spec: the kernel macro `BIT(n)` (`include/linux/bitops.h`)
is not part of the source file; it is the word with only bit `n` set. -/
def BIT (n : Nat) : Nat := 2 ^ n

def IRQ_TEMP1 : Nat := BIT 0
def IRQ_TEMP2 : Nat := BIT 1
def IRQ_TEMP3 : Nat := BIT 2
def IRQ_TEMPD1 : Nat := BIT 3
def IRQ_TEMPD2 : Nat := BIT 4
def IRQ_TEMPD3 : Nat := BIT 5

def CTSR_PONM : Nat := BIT 8
def CTSR_AOUT : Nat := BIT 7
def CTSR_THBGR : Nat := BIT 5
def CTSR_VMEN : Nat := BIT 4
def CTSR_VMST : Nat := BIT 1
def CTSR_THSST : Nat := BIT 0

def THCTR_PONM : Nat := BIT 6
def THCTR_THSST : Nat := BIT 0

def CTEMP_MASK : Nat := 0xFFF

def TSC_MAX_NUM : Nat := 3

def FIXPT_SHIFT : Nat := 7

def RCAR3_THERMAL_GRAN : Int := 500

def TJ_1 : Int := 96
def TJ_3 : Int := -41

/-- Modelled from the spec: the error number `EIO` (`include/uapi/asm-generic/errno-base.h`)
is not part of the source file; it is the I/O-range error of an out-of-band reading. -/
def EIO : Int := 5

/-- Modelled from the spec: the error number `ENOMEM` is not part of the source file; it is
the error of a failed allocation. -/
def ENOMEM : Int := 12

/-- Modelled from the spec: the error number `ENODEV` is not part of the source file; it is
the device-not-found error of a probe that registers no channel. -/
def ENODEV : Int := 19

/-! ## Fixed-point helpers -/

/-- `MCELSIUS(temp)` is `((temp) * 1000)` on `int`. -/
def MCELSIUS (temp : Int) : Int := s32 (temp * 1000)

/-- `FIXPT_INT(_x)` is `((_x) << FIXPT_SHIFT)` on an `int` operand. -/
def FIXPT_INT (x : Int) : Int := s32 (x * 2 ^ FIXPT_SHIFT)

/-- `FIXPT_INT(_x)` on a `u32` operand: the shift is done modulo `2^32`. -/
def FIXPT_INT_u32 (x : Int) : Int := u32 (x * 2 ^ FIXPT_SHIFT)

/-- `INT_FIXPT(_x)` is `((_x) >> FIXPT_SHIFT)` on an `int` operand (arithmetic shift). -/
def INT_FIXPT (x : Int) : Int := x / 2 ^ FIXPT_SHIFT

/-- Modelled from the spec: the kernel macro `DIV_ROUND_CLOSEST`
(`include/linux/kernel.h`) is not part of the source file.  It divides with
round-to-nearest by adding half the divisor to the dividend when both operands
have the same sign and subtracting it otherwise, then dividing with C
truncation.  This is its instance at operand types `int`, `int`. -/
def DIV_ROUND_CLOSEST (x d : Int) : Int :=
  if decide (x > 0) = decide (d > 0) then
    s32 ((s32 (x + s32 (d.tdiv 2))).tdiv d)
  else
    s32 ((s32 (x - s32 (d.tdiv 2))).tdiv d)

/-- Modelled from the spec: the kernel macro `DIV_ROUND_CLOSEST` at operand
types `u32` (dividend) and `int` (divisor).  The macro tests
`((typeof(x))-1) > 0`, which holds for an unsigned dividend, and then evaluates
`(__x + (__d / 2)) / __d`; by the usual arithmetic conversions of C both the
addition and the division are done in `u32`, the divisor being converted to
`u32` first. -/
def DIV_ROUND_CLOSEST_u32 (x d : Int) : Int :=
  u32 ((u32 (x + u32 (s32 (d.tdiv 2)))).tdiv (u32 d))

/-- `FIXPT_DIV(_a, _b)` is `DIV_ROUND_CLOSEST(((_a) << FIXPT_SHIFT), (_b))` on `int` operands. -/
def FIXPT_DIV (a b : Int) : Int := DIV_ROUND_CLOSEST (s32 (a * 2 ^ FIXPT_SHIFT)) b

/-- `FIXPT_DIV(_a, _b)` with a `u32` dividend and an `int` divisor, as in
`rcar_gen3_thermal_get_temp`. -/
def FIXPT_DIV_u32 (a b : Int) : Int := DIV_ROUND_CLOSEST_u32 (u32 (a * 2 ^ FIXPT_SHIFT)) b

/-- `FIXPT_TO_MCELSIUS(_x)` is `((_x) * 1000 >> FIXPT_SHIFT)` on an `int` operand. -/
def FIXPT_TO_MCELSIUS (x : Int) : Int := s32 (x * 1000) / 2 ^ FIXPT_SHIFT

/-! ## Calibration coefficients -/

/-- The C structure `struct equation_coefs`. -/
structure equation_coefs where
  a1 : Int
  b1 : Int
  a2 : Int
  b2 : Int
deriving DecidableEq, Repr

/-- The local `tj_2` of `rcar_gen3_thermal_calc_coefs`. -/
def calc_tj_2 (ptat : Int × Int × Int) : Int :=
  s32 (s32 ((FIXPT_INT (s32 (s32 (ptat.2.1 - ptat.2.2) * 137))).tdiv (s32 (ptat.1 - ptat.2.2)))
    - FIXPT_INT 41)

/-- The C function `rcar_gen3_thermal_calc_coefs`; `ptat` and `thcode` are the
three-element arrays `ptat[0..2]` and `thcode[0..2]`. -/
def rcar_gen3_thermal_calc_coefs (ptat thcode : Int × Int × Int) : equation_coefs :=
  let tj_2 := calc_tj_2 ptat
  let a1 := FIXPT_DIV (FIXPT_INT (s32 (thcode.2.1 - thcode.2.2))) (s32 (tj_2 - FIXPT_INT TJ_3))
  let b1 := s32 (FIXPT_INT thcode.2.2 - s32 (a1 * TJ_3))
  let a2 := FIXPT_DIV (FIXPT_INT (s32 (thcode.2.1 - thcode.1))) (s32 (tj_2 - FIXPT_INT TJ_1))
  let b2 := s32 (FIXPT_INT thcode.1 - s32 (a2 * TJ_1))
  { a1 := a1, b1 := b1, a2 := a2, b2 := b2 }

/-- The C function `rcar_gen3_thermal_round`. -/
def rcar_gen3_thermal_round (temp : Int) : Int :=
  let round_offs : Int :=
    if temp ≥ 0 then RCAR3_THERMAL_GRAN.tdiv 2 else (s32 (-RCAR3_THERMAL_GRAN)).tdiv 2
  let result := s32 ((s32 (temp + round_offs)).tdiv RCAR3_THERMAL_GRAN)
  s32 (result * RCAR3_THERMAL_GRAN)

/-- The local `mcelsius` of `rcar_gen3_thermal_get_temp` after line 182, for a
channel with coefficients `coef` whose `REG_GEN3_TEMP` register reads `regval`.
`reg` is a `u32`, so `FIXPT_INT(reg) - coef.b` and the whole dividend of
`FIXPT_DIV` are computed in `u32`; the quotient is then stored in an `int`. -/
def get_temp_mcelsius (coef : equation_coefs) (regval : Nat) : Int :=
  let reg : Int := ((regval &&& CTEMP_MASK : Nat) : Int)
  let val1 := s32 (FIXPT_DIV_u32 (u32 (FIXPT_INT_u32 reg - u32 coef.b1)) coef.a1)
  let val2 := s32 (FIXPT_DIV_u32 (u32 (FIXPT_INT_u32 reg - u32 coef.b2)) coef.a2)
  FIXPT_TO_MCELSIUS ((s32 (val1 + val2)).tdiv 2)

/-- The conversion of `rcar_gen3_thermal_mcelsius_to_temp`, on the coefficients of the channel. -/
def mcelsius_to_temp (coef : equation_coefs) (mcelsius : Int) : Int :=
  let celsius := DIV_ROUND_CLOSEST mcelsius 1000
  let val1 := s32 (s32 (celsius * coef.a1) + coef.b1)
  let val2 := s32 (s32 (celsius * coef.a2) + coef.b2)
  INT_FIXPT ((s32 (val1 + val2)).tdiv 2)

/-- Modelled from the spec: the kernel macro `clamp_val(val, lo, hi)`
(`include/linux/kernel.h`) is not part of the source file; it clamps `val` into `[lo, hi]`
as `min(max(val, lo), hi)`, here on `int` operands. -/
def clamp_val (val lo hi : Int) : Int := min (max val lo) hi

/-! ## Channel contexts and register access -/

/-- One access to the register window of a channel, or a sleep between two accesses. -/
inductive Op where
  | read (reg val : Nat)
  | write (reg data : Nat)
  | usleep_range (min max : Nat)
deriving DecidableEq, Repr

/-- The C structure `struct rcar_gen3_thermal_tsc`.  `base` is the register
window (offset to `u32` content): a read returns the content, a write replaces
it; what the hardware does to the registers between two entry points of the
driver is covered by the theorems quantifying over the content on entry.
`zone` is the handle of the thermal zone (`0` is `NULL`). -/
structure rcar_gen3_thermal_tsc where
  base : Nat → Nat
  zone : Nat
  coef : equation_coefs
  low : Int
  high : Int

/-- A channel context while a function of the driver runs on it: the context
and the accesses made to its register window so far, oldest first. -/
structure Chan where
  tsc : rcar_gen3_thermal_tsc
  log : List Op

/-- The C function `rcar_gen3_thermal_read` (`ioread32`). -/
def rcar_gen3_thermal_read (c : Chan) (reg : Nat) : Nat × Chan :=
  (c.tsc.base reg, { c with log := c.log ++ [Op.read reg (c.tsc.base reg)] })

/-- The C function `rcar_gen3_thermal_write` (`iowrite32`). -/
def rcar_gen3_thermal_write (c : Chan) (reg data : Nat) : Chan :=
  { tsc := { c.tsc with base := Function.update c.tsc.base reg data },
    log := c.log ++ [Op.write reg data] }

/-- Modelled from the spec: the kernel function `usleep_range` is not part of the source
file; it is a bounded sleep, of which only the call is recorded. -/
def usleep_range (c : Chan) (min max : Nat) : Chan :=
  { c with log := c.log ++ [Op.usleep_range min max] }

/-- Conversion of an `int` argument to the `u32` parameter of `rcar_gen3_thermal_write`. -/
def int_to_u32 (x : Int) : Nat := (u32 x).toNat

/-- The C function `rcar_gen3_thermal_get_temp`.  `temp` is the content of
`*temp` on entry; the result is the returned `int` and the content of `*temp`
on return. -/
def rcar_gen3_thermal_get_temp (c : Chan) (temp : Int) : (Int × Int) × Chan :=
  let (regval, c) := rcar_gen3_thermal_read c REG_GEN3_TEMP
  let mcelsius := get_temp_mcelsius c.tsc.coef regval
  if mcelsius < MCELSIUS (-40) ∨ mcelsius > MCELSIUS 125 then
    ((- EIO, temp), c)
  else
    ((0, rcar_gen3_thermal_round mcelsius), c)

/-- The C function `rcar_gen3_thermal_mcelsius_to_temp`. -/
def rcar_gen3_thermal_mcelsius_to_temp (tsc : rcar_gen3_thermal_tsc) (mcelsius : Int) : Int :=
  mcelsius_to_temp tsc.coef mcelsius

/-- The C function `rcar_gen3_thermal_set_trips`; the result is the returned
`int` and the channel afterwards. -/
def rcar_gen3_thermal_set_trips (c : Chan) (low high : Int) : Int × Chan :=
  let low := clamp_val low (-40000) 125000
  let high := clamp_val high (-40000) 125000
  let c := rcar_gen3_thermal_write c REG_GEN3_IRQTEMP1
    (int_to_u32 (rcar_gen3_thermal_mcelsius_to_temp c.tsc low))
  let c := rcar_gen3_thermal_write c REG_GEN3_IRQTEMP2
    (int_to_u32 (rcar_gen3_thermal_mcelsius_to_temp c.tsc high))
  let c := { c with tsc := { c.tsc with low := low } }
  let c := { c with tsc := { c.tsc with high := high } }
  (0, c)

/-- The C function `rcar_gen3_thermal_init_r8a7795es1`. -/
def rcar_gen3_thermal_init_r8a7795es1 (c : Chan) : Chan :=
  let c := rcar_gen3_thermal_write c REG_GEN3_CTSR CTSR_THBGR
  let c := rcar_gen3_thermal_write c REG_GEN3_CTSR 0x0
  let c := usleep_range c 1000 2000
  let c := rcar_gen3_thermal_write c REG_GEN3_CTSR CTSR_PONM
  let c := rcar_gen3_thermal_write c REG_GEN3_IRQCTL 0x3F
  let c := rcar_gen3_thermal_write c REG_GEN3_IRQMSK 0
  let c := rcar_gen3_thermal_write c REG_GEN3_IRQEN (IRQ_TEMPD1 ||| IRQ_TEMP2)
  let c := rcar_gen3_thermal_write c REG_GEN3_CTSR
    (CTSR_PONM ||| CTSR_AOUT ||| CTSR_THBGR ||| CTSR_VMEN)
  let c := usleep_range c 100 200
  let c := rcar_gen3_thermal_write c REG_GEN3_CTSR
    (CTSR_PONM ||| CTSR_AOUT ||| CTSR_THBGR ||| CTSR_VMEN ||| CTSR_VMST ||| CTSR_THSST)
  usleep_range c 1000 2000

/-- The C function `rcar_gen3_thermal_init`. -/
def rcar_gen3_thermal_init (c : Chan) : Chan :=
  let (reg_val, c) := rcar_gen3_thermal_read c REG_GEN3_THCTR
  let reg_val := reg_val &&& (0xFFFFFFFF ^^^ THCTR_PONM)
  let c := rcar_gen3_thermal_write c REG_GEN3_THCTR reg_val
  let c := usleep_range c 1000 2000
  let c := rcar_gen3_thermal_write c REG_GEN3_IRQCTL 0x3F
  let c := rcar_gen3_thermal_write c REG_GEN3_IRQMSK 0
  let c := rcar_gen3_thermal_write c REG_GEN3_IRQEN (IRQ_TEMPD1 ||| IRQ_TEMP2)
  let (reg_val, c) := rcar_gen3_thermal_read c REG_GEN3_THCTR
  let reg_val := reg_val ||| THCTR_THSST
  let c := rcar_gen3_thermal_write c REG_GEN3_THCTR reg_val
  usleep_range c 1000 2000

/-! ## Controller state -/

/-- The two functions the member `thermal_init` of the controller can point to. -/
inductive thermal_init_fn where
  | init
  | init_r8a7795es1
deriving DecidableEq, Repr

/-- Call through the function pointer `priv->thermal_init`. -/
def thermal_init_fn.call : thermal_init_fn → Chan → Chan
  | .init => rcar_gen3_thermal_init
  | .init_r8a7795es1 => rcar_gen3_thermal_init_r8a7795es1

/-- What the driver does that is visible outside it, in order: accesses to the
register window of channel `i`, notifications of a thermal zone, the lock, and
runtime power management. -/
inductive Event where
  | op (i : Nat) (o : Op)
  | thermal_zone_device_update (zone : Nat)
  | spin_lock
  | spin_unlock
  | spin_lock_irqsave
  | spin_unlock_irqrestore
  | pm_runtime_enable
  | pm_runtime_get_sync
  | pm_runtime_put
  | pm_runtime_disable
deriving DecidableEq, Repr

/-- The C structure `struct rcar_gen3_thermal_priv`.  `tscs` lists the filled
slots of the array `tscs[TSC_MAX_NUM]` (slot `i` is filled when `i` is below
the length; the other slots are `NULL`).  `trace` records the events so far,
oldest first. -/
structure rcar_gen3_thermal_priv where
  tscs : List rcar_gen3_thermal_tsc
  num_tscs : Nat
  thermal_init : thermal_init_fn
  trace : List Event

/-- Run a function of the driver on the channel context `priv->tscs[i]`.  An
empty slot is a `NULL` pointer, which the driver never dereferences in a state
it can reach; the embedding leaves the controller unchanged there. -/
def on_tsc {α : Type} (priv : rcar_gen3_thermal_priv) (i : Nat) (dflt : α)
    (f : Chan → α × Chan) : α × rcar_gen3_thermal_priv :=
  match priv.tscs[i]? with
  | none => (dflt, priv)
  | some tsc =>
    let r := f { tsc := tsc, log := [] }
    (r.1, { priv with tscs := priv.tscs.set i r.2.tsc,
                      trace := priv.trace ++ r.2.log.map (Event.op i) })

/-- Modelled from the spec: the kernel type `irqreturn_t` (`include/linux/irqreturn.h`) is not
part of the source file; `IRQ_HANDLED` ends the handling of the interrupt and
`IRQ_WAKE_THREAD` asks for the worker to be run. -/
inductive irqreturn_t where
  | IRQ_NONE
  | IRQ_HANDLED
  | IRQ_WAKE_THREAD
deriving DecidableEq, Repr

/-- Append an event to the trace. -/
def emit (priv : rcar_gen3_thermal_priv) (e : Event) : rcar_gen3_thermal_priv :=
  { priv with trace := priv.trace ++ [e] }

/-- The C function `rcar_thermal_irq_set`; `on_` is its parameter `on`. -/
def rcar_thermal_irq_set (priv : rcar_gen3_thermal_priv) (on_ : Bool) : rcar_gen3_thermal_priv :=
  let val : Nat := if on_ then IRQ_TEMPD1 ||| IRQ_TEMP2 else 0
  (List.range priv.num_tscs).foldl
    (fun p i => (on_tsc p i () (fun c => ((), rcar_gen3_thermal_write c REG_GEN3_IRQMSK val))).2)
    priv

/-- The C function `rcar_gen3_thermal_irq`. -/
def rcar_gen3_thermal_irq (priv : rcar_gen3_thermal_priv) :
    irqreturn_t × rcar_gen3_thermal_priv :=
  let priv := emit priv Event.spin_lock
  let (ret, priv) := (List.range priv.num_tscs).foldl
    (fun (acc : irqreturn_t × rcar_gen3_thermal_priv) i =>
      let (status, p) := on_tsc acc.2 i 0 (fun c => rcar_gen3_thermal_read c REG_GEN3_IRQSTR)
      let p := (on_tsc p i () (fun c => ((), rcar_gen3_thermal_write c REG_GEN3_IRQSTR 0))).2
      (if status ≠ 0 then irqreturn_t.IRQ_WAKE_THREAD else acc.1, p))
    (irqreturn_t.IRQ_HANDLED, priv)
  let priv := if ret = irqreturn_t.IRQ_WAKE_THREAD then rcar_thermal_irq_set priv false else priv
  let priv := emit priv Event.spin_unlock
  (ret, priv)

/-- The C function `rcar_gen3_thermal_irq_thread`. -/
def rcar_gen3_thermal_irq_thread (priv : rcar_gen3_thermal_priv) :
    irqreturn_t × rcar_gen3_thermal_priv :=
  let priv := (List.range priv.num_tscs).foldl
    (fun p i =>
      match p.tscs[i]? with
      | none => p
      | some tsc => emit p (Event.thermal_zone_device_update tsc.zone))
    priv
  let priv := emit priv Event.spin_lock_irqsave
  let priv := rcar_thermal_irq_set priv true
  let priv := emit priv Event.spin_unlock_irqrestore
  (irqreturn_t.IRQ_HANDLED, priv)

/-! ## Probe, remove, suspend and resume -/

/-- The C function `rcar_gen3_thermal_remove`. -/
def rcar_gen3_thermal_remove (priv : rcar_gen3_thermal_priv) : Int × rcar_gen3_thermal_priv :=
  let priv := rcar_thermal_irq_set priv false
  let priv := emit priv Event.pm_runtime_put
  let priv := emit priv Event.pm_runtime_disable
  (0, priv)

/-- What the kernel answers to the calls `rcar_gen3_thermal_probe` makes for channel `i`. -/
structure tsc_resource where
  /-- Result of `platform_get_resource(pdev, IORESOURCE_MEM, i)`: `none` is `NULL`, otherwise
  the content of the register window. -/
  res : Option (Nat → Nat)
  /-- Whether `devm_kzalloc` of the channel context succeeds. -/
  kzalloc_ok : Bool
  /-- Result of `devm_ioremap_resource`: `some e` is the error pointer `ERR_PTR(e)`. -/
  ioremap_err : Option Int
  /-- Result of `devm_thermal_zone_of_sensor_register`: the error of an error pointer, or the
  handle of the zone. -/
  zone : Except Int Nat
  /-- Result of `of_thermal_get_ntrips`. -/
  ntrips : Int

/-- What the kernel answers to the calls `rcar_gen3_thermal_probe` makes on the platform device. -/
structure platform_device where
  /-- Whether `devm_kzalloc` of the controller state succeeds. -/
  priv_kzalloc_ok : Bool
  /-- Result of `soc_device_match(r8a7795es1)`. -/
  soc_match : Bool
  /-- Result of `platform_get_irq(pdev, i)`. -/
  irq : Nat → Int
  /-- Whether `devm_kasprintf` of the name of interrupt `i` succeeds. -/
  irqname_ok : Nat → Bool
  /-- Result of `devm_request_threaded_irq` for interrupt `i`. -/
  request_irq : Nat → Int
  /-- The answers for channel `i`. -/
  chan : Nat → tsc_resource

/-- The array `ptat` of `rcar_gen3_thermal_probe`. -/
def probe_ptat : Int × Int × Int := (2351, 1509, 435)

/-- The array `thcode` of `rcar_gen3_thermal_probe`, row `i`. -/
def probe_thcode (i : Nat) : Int × Int × Int :=
  match i with
  | 0 => (3248, 2800, 2221)
  | 1 => (3245, 2795, 2216)
  | _ => (3250, 2805, 2237)

/-- The loop `for (i = 0; i < 2; i++)` of `rcar_gen3_thermal_probe` that requests the
interrupts: `some e` when the function returns `e` from inside the loop. -/
def probe_request_irqs (pdev : platform_device) : Option Int :=
  (List.range 2).foldl
    (fun (acc : Option Int) i =>
      match acc with
      | some e => some e
      | none =>
        if pdev.irq i < 0 then some (pdev.irq i)
        else if !pdev.irqname_ok i then some (- ENOMEM)
        else if pdev.request_irq i ≠ 0 then some (pdev.request_irq i)
        else none)
    none

/-- The loop `for (i = 0; i < TSC_MAX_NUM; i++)` of `rcar_gen3_thermal_probe`, with `k`
iterations left and loop variable `i`.  The result is `Except.error ret` when the loop is left
by `goto error_unregister` with `ret` set, and `Except.ok i` when it is left by `break` or by
its condition, with the final value of `i`.  The slot `priv->tscs[i]` is the first empty one
when the iteration for `i` starts, so the assignment to it appends to the list of filled slots. -/
def probe_loop (pdev : platform_device) :
    Nat → Nat → rcar_gen3_thermal_priv → Except Int Nat × rcar_gen3_thermal_priv
  | 0, i, priv => (Except.ok i, priv)
  | k + 1, i, priv =>
    match (pdev.chan i).res with
    | none => (Except.ok i, priv)
    | some window =>
      if !(pdev.chan i).kzalloc_ok then (Except.error (- ENOMEM), priv)
      else
        match (pdev.chan i).ioremap_err with
        | some e => (Except.error e, priv)
        | none =>
          let tsc : rcar_gen3_thermal_tsc :=
            { base := window, zone := 0, coef := ⟨0, 0, 0, 0⟩, low := 0, high := 0 }
          let priv := { priv with tscs := priv.tscs ++ [tsc] }
          let priv := (on_tsc priv i () (fun c => ((), priv.thermal_init.call c))).2
          let priv := (on_tsc priv i () (fun c => ((), { c with tsc := { c.tsc with
            coef := rcar_gen3_thermal_calc_coefs probe_ptat (probe_thcode i) } }))).2
          match (pdev.chan i).zone with
          | Except.error e => (Except.error e, priv)
          | Except.ok zone =>
            let priv := (on_tsc priv i ()
              (fun c => ((), { c with tsc := { c.tsc with zone := zone } }))).2
            let ret := (pdev.chan i).ntrips
            if ret < 0 then (Except.error ret, priv)
            else probe_loop pdev k (i + 1) priv

/-- The C function `rcar_gen3_thermal_probe`.  The result is the returned `int` and the
controller state the device ends with (`none` when its allocation failed). -/
def rcar_gen3_thermal_probe (pdev : platform_device) : Int × Option rcar_gen3_thermal_priv :=
  if !pdev.priv_kzalloc_ok then (- ENOMEM, none)
  else
    let priv : rcar_gen3_thermal_priv :=
      { tscs := [], num_tscs := 0,
        thermal_init :=
          if pdev.soc_match then thermal_init_fn.init_r8a7795es1 else thermal_init_fn.init,
        trace := [] }
    match probe_request_irqs pdev with
    | some e => (e, some priv)
    | none =>
      let priv := emit priv Event.pm_runtime_enable
      let priv := emit priv Event.pm_runtime_get_sync
      match probe_loop pdev TSC_MAX_NUM 0 priv with
      | (Except.error ret, priv) => (ret, some (rcar_gen3_thermal_remove priv).2)
      | (Except.ok i, priv) =>
        let priv := { priv with num_tscs := i }
        if priv.num_tscs = 0 then (- ENODEV, some (rcar_gen3_thermal_remove priv).2)
        else (0, some (rcar_thermal_irq_set priv true))

/-- The C function `rcar_gen3_thermal_suspend`. -/
def rcar_gen3_thermal_suspend (priv : rcar_gen3_thermal_priv) : Int × rcar_gen3_thermal_priv :=
  (0, rcar_thermal_irq_set priv false)

/-- The C function `rcar_gen3_thermal_resume`. -/
def rcar_gen3_thermal_resume (priv : rcar_gen3_thermal_priv) : Int × rcar_gen3_thermal_priv :=
  let priv := (List.range priv.num_tscs).foldl
    (fun p i =>
      let p := (on_tsc p i () (fun c => ((), p.thermal_init.call c))).2
      (on_tsc p i 0 (fun c => rcar_gen3_thermal_set_trips c c.tsc.low c.tsc.high)).2)
    priv
  let priv := rcar_thermal_irq_set priv true
  (0, priv)

/-! ## Reference formulas over unbounded integers -/

/-- Division rounded to the nearest integer, over unbounded integers: the formula of
`DIV_ROUND_CLOSEST` for signed operands without any reduction to 32 bits. -/
def div_round_closest_int (x d : Int) : Int :=
  if decide (x > 0) = decide (d > 0) then (x + d.tdiv 2).tdiv d else (x - d.tdiv 2).tdiv d

/-- The dividend after the rounding addend of `div_round_closest_int` has been applied. -/
def div_round_closest_dividend (x d : Int) : Int :=
  if decide (x > 0) = decide (d > 0) then x + d.tdiv 2 else x - d.tdiv 2

/-- The local `tj_2` of `rcar_gen3_thermal_calc_coefs` over unbounded integers. -/
def calc_tj_2_int (ptat : Int × Int × Int) : Int :=
  ((ptat.2.1 - ptat.2.2) * 137 * 2 ^ 7).tdiv (ptat.1 - ptat.2.2) - 41 * 2 ^ 7

/-- The formulas of `rcar_gen3_thermal_calc_coefs` over unbounded integers. -/
def calc_coefs_int (ptat thcode : Int × Int × Int) : equation_coefs :=
  let tj_2 := calc_tj_2_int ptat
  let a1 := div_round_closest_int ((thcode.2.1 - thcode.2.2) * 2 ^ 7 * 2 ^ 7)
    (tj_2 - TJ_3 * 2 ^ 7)
  let b1 := thcode.2.2 * 2 ^ 7 - a1 * TJ_3
  let a2 := div_round_closest_int ((thcode.2.1 - thcode.1) * 2 ^ 7 * 2 ^ 7)
    (tj_2 - TJ_1 * 2 ^ 7)
  let b2 := thcode.1 * 2 ^ 7 - a2 * TJ_1
  { a1 := a1, b1 := b1, a2 := a2, b2 := b2 }

/-- Every value an operation of `rcar_gen3_thermal_calc_coefs` produces, computed over
unbounded integers: for `tj_2` the two differences, the product by 137, its shift, the quotient,
the constant `FIXPT_INT(41)` and `tj_2`; for each slope the difference of codes, its two
shifts, the shifted reference temperature, the divisor, half the divisor, the dividend with the
rounding addend applied and the quotient; for each intercept the product of the slope by the
reference temperature, the shifted code and the difference. -/
def calc_coefs_intermediates (ptat thcode : Int × Int × Int) : List Int :=
  let n := ptat.2.1 - ptat.2.2
  let m := ptat.1 - ptat.2.2
  let tj_2 := calc_tj_2_int ptat
  let d1 := tj_2 - TJ_3 * 2 ^ 7
  let x1 := (thcode.2.1 - thcode.2.2) * 2 ^ 7 * 2 ^ 7
  let a1 := div_round_closest_int x1 d1
  let d2 := tj_2 - TJ_1 * 2 ^ 7
  let x2 := (thcode.2.1 - thcode.1) * 2 ^ 7 * 2 ^ 7
  let a2 := div_round_closest_int x2 d2
  [n, n * 137, n * 137 * 2 ^ 7, m, (n * 137 * 2 ^ 7).tdiv m, 41 * 2 ^ 7, tj_2,
   thcode.2.1 - thcode.2.2, (thcode.2.1 - thcode.2.2) * 2 ^ 7, x1, TJ_3 * 2 ^ 7, d1,
   d1.tdiv 2, div_round_closest_dividend x1 d1, a1,
   a1 * TJ_3, thcode.2.2 * 2 ^ 7, thcode.2.2 * 2 ^ 7 - a1 * TJ_3,
   thcode.2.1 - thcode.1, (thcode.2.1 - thcode.1) * 2 ^ 7, x2, TJ_1 * 2 ^ 7, d2,
   d2.tdiv 2, div_round_closest_dividend x2 d2, a2,
   a2 * TJ_1, thcode.1 * 2 ^ 7, thcode.1 * 2 ^ 7 - a2 * TJ_1]

/-- The three entries of a calibration triplet lie in `0 .. 0xFFF`. -/
def triplet_12bit (t : Int × Int × Int) : Prop :=
  (0 ≤ t.1 ∧ t.1 ≤ 0xFFF) ∧ (0 ≤ t.2.1 ∧ t.2.1 ≤ 0xFFF) ∧ (0 ≤ t.2.2 ∧ t.2.2 ≤ 0xFFF)

instance (t : Int × Int × Int) : Decidable (triplet_12bit t) := by
  unfold triplet_12bit; infer_instance

/-- The millicelsius value of a raw code `r` as the specification describes it, over signed
unbounded integers: `v_i = ((r * 2^7 - b_i) * 2^7)` divided by `a_i` rounded to nearest, then
`(((v1 + v2) / 2) * 1000) >> 7`. -/
def get_temp_mcelsius_signed (coef : equation_coefs) (r : Int) : Int :=
  let v1 := div_round_closest_int ((r * 2 ^ 7 - coef.b1) * 2 ^ 7) coef.a1
  let v2 := div_round_closest_int ((r * 2 ^ 7 - coef.b2) * 2 ^ 7) coef.a2
  ((v1 + v2).tdiv 2 * 1000) / 2 ^ 7

/-- A channel context with the given coefficients whose every register reads `regval`. -/
def tsc_reading (coef : equation_coefs) (regval : Nat) : rcar_gen3_thermal_tsc :=
  { base := fun _ => regval, zone := 0, coef := coef, low := 0, high := 0 }

/-! ## Exhaustive checks over the 12-bit raw codes -/

/-- Conjunction of `f` over the `2 ^ k` numbers from `base` on, by halving. -/
def all_bits (f : Nat → Bool) : Nat → Nat → Bool
  | 0, base => f base
  | k + 1, base => all_bits f k base && all_bits f k (base + 2 ^ k)

/-- Round trip on one raw code `r`: when the millicelsius value computed from `r` is inside
the band, converting its rounding back lands between `r - 2` and `r + 5`. -/
def roundtrip_check (coef : equation_coefs) (r : Nat) : Bool :=
  let mc := get_temp_mcelsius coef r
  if mc < -40000 ∨ mc > 125000 then true
  else
    decide (-2 ≤ mcelsius_to_temp coef (rcar_gen3_thermal_round mc) - (r : Int) ∧
      mcelsius_to_temp coef (rcar_gen3_thermal_round mc) - (r : Int) ≤ 5)

/-! ## Loops over the channels -/

/-- One iteration of a loop over the channels whose body touches only the channel `i`: it
replaces the context by `g i tsc` and appends the events `ev i tsc`. -/
def chan_step (g : Nat → rcar_gen3_thermal_tsc → rcar_gen3_thermal_tsc)
    (ev : Nat → rcar_gen3_thermal_tsc → List Event)
    (p : rcar_gen3_thermal_priv) (i : Nat) : rcar_gen3_thermal_priv :=
  match p.tscs[i]? with
  | none => p
  | some t => { p with tscs := p.tscs.set i (g i t), trace := p.trace ++ ev i t }

/-- The events of the first `n` iterations of such a loop, started on the contexts `tscs`. -/
def chan_events (ev : Nat → rcar_gen3_thermal_tsc → List Event)
    (tscs : List rcar_gen3_thermal_tsc) (n : Nat) : List Event :=
  (List.range n).flatMap (fun i =>
    match tscs[i]? with
    | none => []
    | some t => ev i t)

/-- The channel context with the register `reg` of its window set to `data`. -/
def set_reg (t : rcar_gen3_thermal_tsc) (reg data : Nat) : rcar_gen3_thermal_tsc :=
  { t with base := Function.update t.base reg data }

/-- The interrupt status the handler reads on channel `i`. -/
def irq_status (p : rcar_gen3_thermal_priv) (i : Nat) : Nat :=
  match p.tscs[i]? with
  | none => 0
  | some t => t.base REG_GEN3_IRQSTR

/-- Reading then clearing the status register of each registered channel, in order. -/
def status_events (p : rcar_gen3_thermal_priv) : List Event :=
  chan_events (fun i t => [Event.op i (Op.read REG_GEN3_IRQSTR (t.base REG_GEN3_IRQSTR)),
    Event.op i (Op.write REG_GEN3_IRQSTR 0)]) p.tscs p.num_tscs

/-- Writing `val` to the interrupt-mask register of each registered channel, in order. -/
def mask_events (p : rcar_gen3_thermal_priv) (val : Nat) : List Event :=
  chan_events (fun i _ => [Event.op i (Op.write REG_GEN3_IRQMSK val)]) p.tscs p.num_tscs

/-- Notifying the thermal zone of each registered channel once, in order. -/
def zone_events (p : rcar_gen3_thermal_priv) : List Event :=
  chan_events (fun _ t => [Event.thermal_zone_device_update t.zone]) p.tscs p.num_tscs

/-- The armed interrupt mask `IRQ_TEMPD1 | IRQ_TEMP2`. -/
def armed_mask : Nat := IRQ_TEMPD1 ||| IRQ_TEMP2

/-- The body of the loop of `rcar_gen3_thermal_irq`, on the pair of `ret` and the controller. -/
def irq_body (acc : irqreturn_t × rcar_gen3_thermal_priv) (i : Nat) :
    irqreturn_t × rcar_gen3_thermal_priv :=
  let (status, p) := on_tsc acc.2 i 0 (fun c => rcar_gen3_thermal_read c REG_GEN3_IRQSTR)
  let p := (on_tsc p i () (fun c => ((), rcar_gen3_thermal_write c REG_GEN3_IRQSTR 0))).2
  (if status ≠ 0 then irqreturn_t.IRQ_WAKE_THREAD else acc.1, p)

/-- A controller with two registered channels whose status registers read `0` and `s`,
used as a concrete instance. -/
def two_channel_priv (s : Nat) : rcar_gen3_thermal_priv :=
  { tscs := [tsc_reading (rcar_gen3_thermal_calc_coefs probe_ptat (probe_thcode 0)) 0,
             tsc_reading (rcar_gen3_thermal_calc_coefs probe_ptat (probe_thcode 1)) s],
    num_tscs := 2, thermal_init := thermal_init_fn.init, trace := [] }

/-! ## Descriptions used by the statements about probe and resume -/

/-- No event of the trace writes the armed mask to an interrupt-mask register. -/
def no_armed_write (tr : List Event) : Prop :=
  ∀ i, Event.op i (Op.write REG_GEN3_IRQMSK armed_mask) ∉ tr

/-- The error of the first step of `rcar_gen3_thermal_probe` on a present channel that fails:
allocation of the context, mapping of the registers, registration of the thermal zone, query
of the number of trip points; `none` when the four steps succeed. -/
def tsc_resource.first_error (r : tsc_resource) : Option Int :=
  if !r.kzalloc_ok then some (- ENOMEM)
  else
    match r.ioremap_err with
    | some e => some e
    | none =>
      match r.zone with
      | Except.error e => some e
      | Except.ok _ => if r.ntrips < 0 then some r.ntrips else none

/-- The allocation of the controller state succeeds and both interrupt lines are obtained. -/
def irqs_obtained (pdev : platform_device) : Prop :=
  pdev.priv_kzalloc_ok = true ∧
  ∀ i, i < 2 → 0 ≤ pdev.irq i ∧ pdev.irqname_ok i = true ∧ pdev.request_irq i = 0

/-- The channel context `devm_kzalloc` returns, with its register window mapped. -/
def fresh_tsc (window : Nat → Nat) : rcar_gen3_thermal_tsc :=
  { base := window, zone := 0, coef := ⟨0, 0, 0, 0⟩, low := 0, high := 0 }

/-- The controller after the iteration of the probe loop for channel `i` has initialised the
channel, computed its coefficients and stored the zone handle `zone` (`0` before the zone is
registered). -/
def probe_chan_state (p : rcar_gen3_thermal_priv) (i : Nat) (window : Nat → Nat) (zone : Nat) :
    rcar_gen3_thermal_priv :=
  { p with
    tscs := p.tscs ++ [{ (p.thermal_init.call ⟨fresh_tsc window, []⟩).tsc with
      coef := rcar_gen3_thermal_calc_coefs probe_ptat (probe_thcode i), zone := zone }],
    trace := p.trace ++ (p.thermal_init.call ⟨fresh_tsc window, []⟩).log.map (Event.op i) }

/-- A platform with three channel resources on which every call succeeds, except that the
registration of the thermal zone of channel `f` fails with `-EINVAL` (`-22`) when `fail` is
`some f`; used as a concrete instance. -/
def sample_pdev (fail : Option Nat) : platform_device :=
  { priv_kzalloc_ok := true,
    soc_match := false,
    irq := fun _ => 40,
    irqname_ok := fun _ => true,
    request_irq := fun _ => 0,
    chan := fun i =>
      { res := if i < 3 then some (fun _ => 0) else none,
        kzalloc_ok := true,
        ioremap_err := none,
        zone := if fail = some i then Except.error (-22) else Except.ok (100 + i),
        ntrips := 2 } }

/-- The controller when the channel loop of `rcar_gen3_thermal_probe` starts. -/
def probe_start (pdev : platform_device) : rcar_gen3_thermal_priv :=
  emit (emit
    { tscs := [], num_tscs := 0,
      thermal_init :=
        if pdev.soc_match then thermal_init_fn.init_r8a7795es1 else thermal_init_fn.init,
      trace := [] } Event.pm_runtime_enable) Event.pm_runtime_get_sync

/-- The millicelsius value lies in the band of the sensor. -/
def in_band (x : Int) : Prop := -40000 ≤ x ∧ x ≤ 125000

/-- The body of the loop of `rcar_gen3_thermal_resume` on one channel context: the init
sequence, then `rcar_gen3_thermal_set_trips` with the stored thresholds. -/
def resume_chan (fn : thermal_init_fn) (t : rcar_gen3_thermal_tsc) : Chan :=
  let c1 := fn.call ⟨t, []⟩
  let c2 := (rcar_gen3_thermal_set_trips ⟨c1.tsc, []⟩ c1.tsc.low c1.tsc.high).2
  ⟨c2.tsc, c1.log ++ c2.log⟩

/-- The controller states the driver can be in: after a probe that returned `0`, and after any
sequence of calls of the thermal-zone operations on a registered channel, of the interrupt
handler and its worker, and of suspend and resume. -/
inductive Reachable : rcar_gen3_thermal_priv → Prop where
  | probe (pdev : platform_device) (p : rcar_gen3_thermal_priv) :
      rcar_gen3_thermal_probe pdev = (0, some p) → Reachable p
  | set_trips (p : rcar_gen3_thermal_priv) (i : Nat) (low high : Int) :
      Reachable p → i < p.num_tscs →
      Reachable (on_tsc p i 0 (fun c => rcar_gen3_thermal_set_trips c low high)).2
  | get_temp (p : rcar_gen3_thermal_priv) (i : Nat) (temp : Int) :
      Reachable p → i < p.num_tscs →
      Reachable (on_tsc p i (0, temp) (fun c => rcar_gen3_thermal_get_temp c temp)).2
  | irq (p : rcar_gen3_thermal_priv) :
      Reachable p → Reachable (rcar_gen3_thermal_irq p).2
  | irq_thread (p : rcar_gen3_thermal_priv) :
      Reachable p → Reachable (rcar_gen3_thermal_irq_thread p).2
  | suspend (p : rcar_gen3_thermal_priv) :
      Reachable p → Reachable (rcar_gen3_thermal_suspend p).2
  | resume (p : rcar_gen3_thermal_priv) :
      Reachable p → Reachable (rcar_gen3_thermal_resume p).2

/-- The invariant of the reachable states: the registered channels have a context, and the
stored thresholds of every context lie in the band. -/
def thresholds_in_band (p : rcar_gen3_thermal_priv) : Prop :=
  p.num_tscs ≤ p.tscs.length ∧
  ∀ (j : Nat) (t : rcar_gen3_thermal_tsc), p.tscs[j]? = some t → in_band t.low ∧ in_band t.high

/-- The controller after probe on the platform `sample_pdev none`; used as a concrete
instance. -/
def sample_priv : rcar_gen3_thermal_priv :=
  match (rcar_gen3_thermal_probe (sample_pdev none)).2 with
  | some p => p
  | none => { tscs := [], num_tscs := 0, thermal_init := thermal_init_fn.init, trace := [] }

/-- The controller `sample_priv` after a request of the thresholds `(-999999, 999999)` on
channel 0 followed by a suspend; used as a concrete instance. -/
def sample_suspended : rcar_gen3_thermal_priv :=
  (rcar_gen3_thermal_suspend
    (on_tsc sample_priv 0 0
      (fun c => rcar_gen3_thermal_set_trips c (-999999) 999999)).2).2

/-! ## The same check on natural numbers

The exhaustive check is run on the following functions, which do the unsigned part of the
computation of `rcar_gen3_thermal_get_temp` on natural numbers below `2^32`; they are proved
to agree with the embedding of the driver. -/

/-- Subtraction of `u32` values, on natural numbers. -/
def u32_sub (x y : Nat) : Nat := (x + (4294967296 - y % 4294967296)) % 4294967296

/-- The `int` with the bit pattern `x` of a `u32`. -/
def to_s32 (x : Nat) : Int :=
  if x < 2147483648 then (x : Int) else (x : Int) - 4294967296

/-- The `u32` value of one temperature estimate of `rcar_gen3_thermal_get_temp`: raw code
`reg`, slope `a`, intercept `b`. -/
def estimate_u32 (reg a b : Nat) : Nat :=
  ((u32_sub (reg * 128 % 4294967296) b * 128 % 4294967296 + a / 2) % 4294967296) / a

/-- The bit pattern of `(val1 + val2) / 2 * 1000` from the bit patterns of `val1` and `val2`. -/
def avg_mul_u32 (q1 q2 : Nat) : Nat :=
  if (q1 + q2) % 4294967296 < 2147483648 then
    ((q1 + q2) % 4294967296 / 2 * 1000) % 4294967296
  else
    (4294967296 - ((4294967296 - (q1 + q2) % 4294967296) / 2 * 1000) % 4294967296)
      % 4294967296

/-- The bit pattern of `(val1 + val2) / 2 * 1000` for the raw code `r`. -/
def mcelsius_pattern (a1 b1 a2 b2 r : Nat) : Nat :=
  avg_mul_u32 (estimate_u32 (r % 4096) a1 b1) (estimate_u32 (r % 4096) a2 b2)

/-- The raw code that `rcar_gen3_thermal_mcelsius_to_temp` gives back for the rounding of a
nonnegative millicelsius value `n`. -/
def back_to_raw (a1 b1 a2 b2 n : Nat) : Nat :=
  (((n + 250) / 500 * 500 + 500) / 1000 * a1 + b1 +
    (((n + 250) / 500 * 500 + 500) / 1000 * a2 + b2)) / 2 / 128

/-- Evaluate `m` before passing it on. -/
def force_nat (m : Nat) (k : Nat → Bool) : Bool :=
  match m with
  | 0 => k 0
  | n + 1 => k (n + 1)

/-- The check `roundtrip_check` on natural numbers, for the raw code `r` whose bit pattern of
`(val1 + val2) / 2 * 1000` is `m`. -/
def roundtrip_check_pattern (a1 b1 a2 b2 r m : Nat) : Bool :=
  if m < 2147483648 then
    if m / 128 > 125000 then true
    else
      force_nat (back_to_raw a1 b1 a2 b2 (m / 128)) fun x => decide (r ≤ x + 2 ∧ x ≤ r + 5)
  else
    if (4294967296 - m + 127) / 128 > 40000 then true
    else roundtrip_check ⟨a1, b1, a2, b2⟩ r

/-- The check `roundtrip_check` on natural numbers. -/
def roundtrip_check_nat (a1 b1 a2 b2 r : Nat) : Bool :=
  force_nat (mcelsius_pattern a1 b1 a2 b2 r) (roundtrip_check_pattern a1 b1 a2 b2 r)

/-- The check that the raw code `r`, when below `2534`, is rejected by the range test of
`rcar_gen3_thermal_get_temp`, and that the signed formula puts it inside the band when it is
at least `2233`. -/
def subzero_check (a1 b1 a2 b2 r : Nat) : Bool :=
  if r < 2534 then
    force_nat (mcelsius_pattern a1 b1 a2 b2 r) (fun m =>
      (if m < 2147483648 then decide (m / 128 > 125000)
       else decide ((4294967296 - m + 127) / 128 > 40000)) &&
      (if 2233 ≤ r then
        decide (-40000 ≤ get_temp_mcelsius_signed ⟨a1, b1, a2, b2⟩ r ∧
          get_temp_mcelsius_signed ⟨a1, b1, a2, b2⟩ r ≤ 125000)
       else true))
  else true

/-! # Theorems -/

/-! ## Lemmas on machine integers -/

theorem s32_eq_self (x : Int) (h : fits_s32 x) : s32 x = x := by
  unfold fits_s32 at h
  unfold s32
  omega

theorem tdiv_of_nonneg {x d : Int} (hx : 0 ≤ x) (hd : 0 < d) : x.tdiv d = x / d :=
  Int.tdiv_eq_ediv hx (le_of_lt hd)

theorem tdiv_of_nonpos {x d : Int} (hx : x ≤ 0) (hd : 0 < d) : x.tdiv d = -((-x) / d) := by
  have h := Int.neg_tdiv (-x) d
  rw [neg_neg] at h
  rw [h, Int.tdiv_eq_ediv (by omega) (le_of_lt hd)]

theorem round_of_nonneg (temp : Int) (h0 : 0 ≤ temp) (h1 : temp ≤ 2147483397) :
    rcar_gen3_thermal_round temp = (temp + 250) / 500 * 500 := by
  unfold rcar_gen3_thermal_round RCAR3_THERMAL_GRAN
  have e1 : (500 : Int).tdiv 2 = 250 := by decide
  simp only [ge_iff_le, h0, if_true, e1]
  rw [s32_eq_self (temp + 250) (by unfold fits_s32; omega),
    tdiv_of_nonneg (by omega) (by norm_num),
    s32_eq_self ((temp + 250) / 500) (by unfold fits_s32; omega),
    s32_eq_self _ (by unfold fits_s32; omega)]

theorem round_of_neg (temp : Int) (h0 : temp < 0) (h1 : -2147483398 ≤ temp) :
    rcar_gen3_thermal_round temp = -((250 - temp) / 500 * 500) := by
  unfold rcar_gen3_thermal_round RCAR3_THERMAL_GRAN
  have e1 : (s32 (-500)).tdiv 2 = -250 := by decide
  have h0' : ¬ (0 ≤ temp) := by omega
  simp only [ge_iff_le, h0', if_false, e1]
  rw [s32_eq_self (temp + -250) (by unfold fits_s32; omega),
    tdiv_of_nonpos (by omega) (by norm_num)]
  have e2 : -(temp + -250) = 250 - temp := by ring
  rw [e2, s32_eq_self (-((250 - temp) / 500)) (by unfold fits_s32; omega),
    s32_eq_self _ (by unfold fits_s32; omega)]
  ring

/-- C9 (as stated, refuted): `rcar_gen3_thermal_round(123749)` is not `124000`. -/
theorem round_123749_ne_124000 : rcar_gen3_thermal_round 123749 ≠ 124000 := by
  decide

/-- C9 (amended): `rcar_gen3_thermal_round` sends `123749` to `123500` and `-123749` to
`-123500`; the inputs `123750` and `-123750`, half-way between two steps, are the ones sent to
`124000` and `-124000`. -/
theorem round_of_123749_is_123500 :
    rcar_gen3_thermal_round 123749 = 123500 ∧ rcar_gen3_thermal_round (-123749) = -123500 ∧
    rcar_gen3_thermal_round 123750 = 124000 ∧ rcar_gen3_thermal_round (-123750) = -124000 := by
  decide

theorem round_neg (temp : Int) (hlo : fits_s32 (temp - 250)) (hhi : fits_s32 (temp + 250))
    (hneg : fits_s32 (-temp + 250)) :
    rcar_gen3_thermal_round (-temp) = -rcar_gen3_thermal_round temp := by
  unfold fits_s32 at hlo hhi hneg
  rcases lt_trichotomy temp 0 with h | h | h
  · rw [round_of_neg temp h (by omega), round_of_nonneg (-temp) (by omega) (by omega)]
    have e : -temp + 250 = 250 - temp := by ring
    rw [e]
    ring
  · subst h
    decide
  · rw [round_of_nonneg temp (le_of_lt h) (by omega), round_of_neg (-temp) (by omega) (by omega)]
    have e : 250 - -temp = temp + 250 := by ring
    rw [e]

/-- C4: when `temp - 250` and `temp + 250` fit a C `int`, `rcar_gen3_thermal_round temp` is a
multiple of 500 at distance at most 250 from `temp`; when `temp` is half-way between two
multiples of 500 the result is the one farther from zero, so that rounding commutes with
negation there; rounding commutes with negation at every `temp` whose negation satisfies the
same bound. -/
theorem round_nearest_half_away (temp : Int) (hlo : fits_s32 (temp - 250))
    (hhi : fits_s32 (temp + 250)) :
    (500 ∣ rcar_gen3_thermal_round temp) ∧
    |rcar_gen3_thermal_round temp - temp| ≤ 250 ∧
    (temp % 500 = 250 → |rcar_gen3_thermal_round temp| = |temp| + 250 ∧
      rcar_gen3_thermal_round (-temp) = -rcar_gen3_thermal_round temp) ∧
    (fits_s32 (-temp + 250) →
      rcar_gen3_thermal_round (-temp) = -rcar_gen3_thermal_round temp) := by
  refine ⟨?_, ?_, ?_, fun hneg => round_neg temp hlo hhi hneg⟩
  · unfold fits_s32 at hlo hhi
    rcases lt_or_le temp 0 with h | h
    · rw [round_of_neg temp h (by omega)]
      exact (Int.dvd_neg).mpr (Dvd.intro_left _ rfl)
    · rw [round_of_nonneg temp h (by omega)]
      exact Dvd.intro_left _ rfl
  · unfold fits_s32 at hlo hhi
    rcases lt_or_le temp 0 with h | h
    · rw [round_of_neg temp h (by omega), abs_le]
      omega
    · rw [round_of_nonneg temp h (by omega), abs_le]
      omega
  · intro hm
    refine ⟨?_, round_neg temp hlo hhi (by unfold fits_s32 at *; omega)⟩
    unfold fits_s32 at hlo hhi
    rcases lt_or_le temp 0 with h | h
    · rw [round_of_neg temp h (by omega), abs_of_nonpos (by omega), abs_of_neg h]
      omega
    · rw [round_of_nonneg temp h (by omega), abs_of_nonneg (by omega), abs_of_nonneg h]
      omega

/-- Witness of C4 at the half-way value `-40250`: it rounds to `-40500`. -/
theorem round_nearest_half_away_witness :
    (500 ∣ rcar_gen3_thermal_round (-40250)) ∧
    |rcar_gen3_thermal_round (-40250) - (-40250)| ≤ 250 ∧
    ((-40250 : Int) % 500 = 250 → |rcar_gen3_thermal_round (-40250)| = |(-40250 : Int)| + 250 ∧
      rcar_gen3_thermal_round (-(-40250)) = -rcar_gen3_thermal_round (-40250)) ∧
    (fits_s32 (-(-40250) + 250) →
      rcar_gen3_thermal_round (-(-40250)) = -rcar_gen3_thermal_round (-40250)) :=
  round_nearest_half_away (-40250) (by decide) (by decide)

theorem MCELSIUS_neg_40 : MCELSIUS (-40) = -40000 := by decide

theorem MCELSIUS_125 : MCELSIUS 125 = 125000 := by decide

/-- C1: on a channel with nonzero slopes, with `mc` the millicelsius value computed from the
temperature register masked to 12 bits, `rcar_gen3_thermal_get_temp` returns `-EIO` and leaves
`*temp` as it was exactly when `mc < -40000` or `mc > 125000`; otherwise it returns `0` and
stores `rcar_gen3_thermal_round mc`.  At `mc = -40000` and at `mc = 125000` it succeeds.  The
channel context is left unchanged. -/
theorem get_temp_range_check (c : Chan) (temp : Int) :
    c.tsc.coef.a1 ≠ 0 → c.tsc.coef.a2 ≠ 0 →
    ((rcar_gen3_thermal_get_temp c temp).1 = (- EIO, temp) ↔
      (get_temp_mcelsius c.tsc.coef (c.tsc.base REG_GEN3_TEMP) < -40000 ∨
        get_temp_mcelsius c.tsc.coef (c.tsc.base REG_GEN3_TEMP) > 125000)) ∧
    (¬ (get_temp_mcelsius c.tsc.coef (c.tsc.base REG_GEN3_TEMP) < -40000 ∨
        get_temp_mcelsius c.tsc.coef (c.tsc.base REG_GEN3_TEMP) > 125000) →
      (rcar_gen3_thermal_get_temp c temp).1 =
        (0, rcar_gen3_thermal_round
          (get_temp_mcelsius c.tsc.coef (c.tsc.base REG_GEN3_TEMP)))) ∧
    (get_temp_mcelsius c.tsc.coef (c.tsc.base REG_GEN3_TEMP) = -40000 →
      (rcar_gen3_thermal_get_temp c temp).1 = (0, -40000)) ∧
    (get_temp_mcelsius c.tsc.coef (c.tsc.base REG_GEN3_TEMP) = 125000 →
      (rcar_gen3_thermal_get_temp c temp).1 = (0, 125000)) ∧
    (rcar_gen3_thermal_get_temp c temp).2.tsc = c.tsc := by
  intro _ _
  have hne : ((0 : Int), rcar_gen3_thermal_round
      (get_temp_mcelsius c.tsc.coef (c.tsc.base REG_GEN3_TEMP))) ≠ (- EIO, temp) := by
    intro h
    have h1 : (0 : Int) = - EIO := congrArg Prod.fst h
    exact absurd h1 (by decide)
  by_cases hb : get_temp_mcelsius c.tsc.coef (c.tsc.base REG_GEN3_TEMP) < -40000 ∨
      get_temp_mcelsius c.tsc.coef (c.tsc.base REG_GEN3_TEMP) > 125000
  · have e : rcar_gen3_thermal_get_temp c temp =
        ((- EIO, temp), (rcar_gen3_thermal_read c REG_GEN3_TEMP).2) := by
      simp only [rcar_gen3_thermal_get_temp, rcar_gen3_thermal_read, MCELSIUS_neg_40,
        MCELSIUS_125]
      rw [if_pos hb]
    rw [e]
    refine ⟨⟨fun _ => hb, fun _ => rfl⟩, fun h => absurd hb h, ?_, ?_, rfl⟩
    · intro h; rw [h] at hb; exact absurd hb (by decide)
    · intro h; rw [h] at hb; exact absurd hb (by decide)
  · have e : rcar_gen3_thermal_get_temp c temp =
        ((0, rcar_gen3_thermal_round
          (get_temp_mcelsius c.tsc.coef (c.tsc.base REG_GEN3_TEMP))),
         (rcar_gen3_thermal_read c REG_GEN3_TEMP).2) := by
      simp only [rcar_gen3_thermal_get_temp, rcar_gen3_thermal_read, MCELSIUS_neg_40,
        MCELSIUS_125]
      rw [if_neg hb]
    rw [e]
    refine ⟨⟨fun h => absurd h hne, fun h => absurd h hb⟩, fun _ => rfl, ?_, ?_, rfl⟩
    · intro h; rw [h]
      have e1 : rcar_gen3_thermal_round (-40000) = -40000 := by decide
      rw [e1]
    · intro h; rw [h]
      have e1 : rcar_gen3_thermal_round 125000 = 125000 := by decide
      rw [e1]

/-- Witness of C1: with slopes `1` and intercepts `40` a register reading `0` computes exactly
`-40000` millicelsius, and the reading is accepted. -/
theorem get_temp_range_check_witness :
    get_temp_mcelsius (tsc_reading ⟨1, 40, 1, 40⟩ 0).coef
      ((tsc_reading ⟨1, 40, 1, 40⟩ 0).base REG_GEN3_TEMP) = -40000 ∧
    (rcar_gen3_thermal_get_temp ⟨tsc_reading ⟨1, 40, 1, 40⟩ 0, []⟩ 7).1 = (0, -40000) :=
  ⟨by decide,
   (get_temp_range_check ⟨tsc_reading ⟨1, 40, 1, 40⟩ 0, []⟩ 7 (by decide) (by decide)).2.2.1
     (by decide)⟩

/-- C2 (failing input): on channel 0 with the coefficients derived from the fallback
calibration constants, the raw code `2400` lies below both intercepts.  The signed formula
gives `-17633` millicelsius, inside the band.  The code computes the two estimates in `u32`:
they come out as `4448534` and `4509214` instead of `-2209` and `-2306`, the millicelsius value
is `1436771`, and `rcar_gen3_thermal_get_temp` returns `-EIO`. -/
theorem get_temp_subzero_code_2400 :
    rcar_gen3_thermal_calc_coefs probe_ptat (probe_thcode 0) = ⟨965, 323853, 952, 324352⟩ ∧
    get_temp_mcelsius_signed (rcar_gen3_thermal_calc_coefs probe_ptat (probe_thcode 0)) 2400
      = -17633 ∧
    div_round_closest_int ((2400 * 2 ^ 7 - 323853) * 2 ^ 7) 965 = -2209 ∧
    div_round_closest_int ((2400 * 2 ^ 7 - 324352) * 2 ^ 7) 952 = -2306 ∧
    s32 (FIXPT_DIV_u32 (u32 (FIXPT_INT_u32 2400 - u32 323853)) 965) = 4448534 ∧
    s32 (FIXPT_DIV_u32 (u32 (FIXPT_INT_u32 2400 - u32 324352)) 952) = 4509214 ∧
    get_temp_mcelsius (rcar_gen3_thermal_calc_coefs probe_ptat (probe_thcode 0)) 2400
      = 1436771 ∧
    (rcar_gen3_thermal_get_temp
      ⟨tsc_reading (rcar_gen3_thermal_calc_coefs probe_ptat (probe_thcode 0)) 2400, []⟩ 0).1
      = (- EIO, 0) := by
  decide

/-- C3: `rcar_gen3_thermal_set_trips` returns `0`, stores the two thresholds clamped to
`[-40000, 125000]`, writes `rcar_gen3_thermal_mcelsius_to_temp` of the clamped values to
`IRQTEMP1` and `IRQTEMP2` (in this order, and nothing else), and leaves the coefficients, the
zone and every other register as they were.  With `low = -999999` and `high = 999999` the
stored thresholds are `-40000` and `125000`. -/
theorem set_trips_clamps (c : Chan) (low high : Int) :
    (rcar_gen3_thermal_set_trips c low high).1 = 0 ∧
    (rcar_gen3_thermal_set_trips c low high).2.tsc.low = clamp_val low (-40000) 125000 ∧
    (rcar_gen3_thermal_set_trips c low high).2.tsc.high = clamp_val high (-40000) 125000 ∧
    (rcar_gen3_thermal_set_trips c low high).2.tsc.coef = c.tsc.coef ∧
    (rcar_gen3_thermal_set_trips c low high).2.tsc.zone = c.tsc.zone ∧
    (rcar_gen3_thermal_set_trips c low high).2.log = c.log ++
      [Op.write REG_GEN3_IRQTEMP1 (int_to_u32
          (rcar_gen3_thermal_mcelsius_to_temp c.tsc (clamp_val low (-40000) 125000))),
       Op.write REG_GEN3_IRQTEMP2 (int_to_u32
          (rcar_gen3_thermal_mcelsius_to_temp c.tsc (clamp_val high (-40000) 125000)))] ∧
    (rcar_gen3_thermal_set_trips c low high).2.tsc.base REG_GEN3_IRQTEMP1 =
      int_to_u32 (rcar_gen3_thermal_mcelsius_to_temp c.tsc (clamp_val low (-40000) 125000)) ∧
    (rcar_gen3_thermal_set_trips c low high).2.tsc.base REG_GEN3_IRQTEMP2 =
      int_to_u32 (rcar_gen3_thermal_mcelsius_to_temp c.tsc (clamp_val high (-40000) 125000)) ∧
    (∀ reg, reg ≠ REG_GEN3_IRQTEMP1 → reg ≠ REG_GEN3_IRQTEMP2 →
      (rcar_gen3_thermal_set_trips c low high).2.tsc.base reg = c.tsc.base reg) ∧
    (rcar_gen3_thermal_set_trips c (-999999) 999999).2.tsc.low = -40000 ∧
    (rcar_gen3_thermal_set_trips c (-999999) 999999).2.tsc.high = 125000 := by
  refine ⟨rfl, rfl, rfl, rfl, rfl, ?_, ?_, ?_, ?_, ?_, ?_⟩
  · simp [rcar_gen3_thermal_set_trips, rcar_gen3_thermal_write,
      rcar_gen3_thermal_mcelsius_to_temp]
  · simp [rcar_gen3_thermal_set_trips, rcar_gen3_thermal_write,
      rcar_gen3_thermal_mcelsius_to_temp, Function.update, REG_GEN3_IRQTEMP1,
      REG_GEN3_IRQTEMP2]
  · simp [rcar_gen3_thermal_set_trips, rcar_gen3_thermal_write,
      rcar_gen3_thermal_mcelsius_to_temp, Function.update]
  · intro reg h1 h2
    simp [rcar_gen3_thermal_set_trips, rcar_gen3_thermal_write, Function.update, h1, h2]
  · show clamp_val (-999999) (-40000) 125000 = -40000
    decide
  · show clamp_val 999999 (-40000) 125000 = 125000
    decide

/-! ## No overflow in the coefficient solver -/

theorem abs_tdiv (a b : Int) : |a.tdiv b| = |a| / |b| := by
  rw [Int.abs_eq_natAbs, Int.abs_eq_natAbs, Int.abs_eq_natAbs, Int.natAbs_tdiv]
  exact Int.ofNat_ediv _ _

theorem div_round_closest_int_eq (x d : Int) :
    div_round_closest_int x d = (div_round_closest_dividend x d).tdiv d := by
  unfold div_round_closest_int div_round_closest_dividend
  split <;> rfl

theorem DIV_ROUND_CLOSEST_eq_int (x d : Int) (h1 : fits_s32 (d.tdiv 2))
    (h2 : fits_s32 (div_round_closest_dividend x d))
    (h3 : fits_s32 (div_round_closest_int x d)) :
    DIV_ROUND_CLOSEST x d = div_round_closest_int x d := by
  unfold DIV_ROUND_CLOSEST
  unfold div_round_closest_int at h3 ⊢
  unfold div_round_closest_dividend at h2
  rw [s32_eq_self _ h1]
  split
  · rename_i hc
    rw [if_pos hc] at h2 h3
    rw [s32_eq_self _ h2, s32_eq_self _ h3]
  · rename_i hc
    rw [if_neg hc] at h2 h3
    rw [s32_eq_self _ h2, s32_eq_self _ h3]

/-- The quotient of `tj_2`: for differences `n`, `m` of 12-bit codes with `m ≠ 0`, the
quotient `(n * 137 * 2^7) / m` is bounded, is `0` or at least `4` in magnitude, and is `17536`
or at distance at least `4` from it. -/
theorem tj_quotient_bounds (n m : Int) (hn : -4095 ≤ n ∧ n ≤ 4095) (hm : -4095 ≤ m ∧ m ≤ 4095)
    (hm0 : m ≠ 0) :
    (-71809920 ≤ (n * 137 * 2 ^ 7).tdiv m ∧ (n * 137 * 2 ^ 7).tdiv m ≤ 71809920) ∧
    ((n * 137 * 2 ^ 7).tdiv m = 0 ∨ (n * 137 * 2 ^ 7).tdiv m ≤ -4 ∨
      4 ≤ (n * 137 * 2 ^ 7).tdiv m) ∧
    ((n * 137 * 2 ^ 7).tdiv m = 17536 ∨ (n * 137 * 2 ^ 7).tdiv m ≤ 17532 ∨
      17540 ≤ (n * 137 * 2 ^ 7).tdiv m) := by
  have hq := abs_tdiv (n * 137 * 2 ^ 7) m
  have e1 : |n * 137 * 2 ^ 7| = |n| * 17536 := by
    rw [abs_mul, abs_mul]
    norm_num
    ring
  rw [e1] at hq
  have hN0 : 0 ≤ |n| := abs_nonneg n
  have hN1 : |n| ≤ 4095 := abs_le.mpr hn
  have hM0 : 0 < |m| := abs_pos.mpr hm0
  have hM1 : |m| ≤ 4095 := abs_le.mpr hm
  generalize |n| = N at hq hN0 hN1
  generalize |m| = M at hq hM0 hM1
  have hQ0 : 0 ≤ N * 17536 / M := Int.ediv_nonneg (by omega) (le_of_lt hM0)
  have hQ1 : N * 17536 / M < 71809921 := (Int.ediv_lt_iff_lt_mul hM0).mpr (by omega)
  have hQ2 : N = 0 ∨ 4 ≤ N * 17536 / M := by
    rcases eq_or_lt_of_le hN0 with h | h
    · exact Or.inl h.symm
    · exact Or.inr ((Int.le_ediv_iff_mul_le hM0).mpr (by omega))
  have hQ3 : N * 17536 / M = 17536 ∨ N * 17536 / M ≤ 17532 ∨ 17540 ≤ N * 17536 / M := by
    rcases lt_trichotomy N M with h | h | h
    · have := (Int.ediv_lt_iff_lt_mul (a := N * 17536) (b := 17533) hM0).mpr (by omega)
      omega
    · have h1 := (Int.ediv_lt_iff_lt_mul (a := N * 17536) (b := 17537) hM0).mpr (by omega)
      have h2 := (Int.le_ediv_iff_mul_le (a := 17536) (b := N * 17536) hM0).mpr (by omega)
      omega
    · have := (Int.le_ediv_iff_mul_le (a := 17540) (b := N * 17536) hM0).mpr (by omega)
      omega
  have hQ4 : N = 0 → N * 17536 / M = 0 := by
    intro h
    rw [h]
    simp
  generalize N * 17536 / M = Q at hq hQ0 hQ1 hQ2 hQ3 hQ4
  generalize (n * 137 * 2 ^ 7).tdiv m = q at hq
  rcases le_total 0 q with h | h
  · rw [abs_of_nonneg h] at hq
    omega
  · rw [abs_of_nonpos h] at hq
    omega

/-- Bounds on the rounding division of a slope: dividend at most `4095 * 2^14` in magnitude,
divisor nonzero with magnitude between `4` and `71827456`. -/
theorem slope_division_bounds (x d : Int) (hx : -67092480 ≤ x ∧ x ≤ 67092480)
    (hd : d ≤ -4 ∨ 4 ≤ d) (hd1 : -71827456 ≤ d ∧ d ≤ 71827456) :
    |d.tdiv 2| ≤ 35913728 ∧ |div_round_closest_dividend x d| ≤ 103006208 ∧
    |div_round_closest_int x d| ≤ 16773121 := by
  have hh := abs_tdiv d 2
  have e2 : |(2 : Int)| = 2 := by norm_num
  rw [e2] at hh
  have hX0 : 0 ≤ |x| := abs_nonneg x
  have hX1 : |x| ≤ 67092480 := abs_le.mpr hx
  have hD0 : 4 ≤ |d| := by
    rcases hd with h | h
    · rw [abs_of_nonpos (by omega)]; omega
    · rw [abs_of_nonneg (by omega)]; omega
  have hD1 : |d| ≤ 71827456 := abs_le.mpr hd1
  have hy : |div_round_closest_dividend x d| ≤ |x| + |d.tdiv 2| := by
    unfold div_round_closest_dividend
    split
    · exact abs_add _ _
    · exact abs_sub _ _
  have ha := abs_tdiv (div_round_closest_dividend x d) d
  rw [← div_round_closest_int_eq] at ha
  have hY0 : 0 ≤ |div_round_closest_dividend x d| := abs_nonneg _
  generalize |div_round_closest_dividend x d| = Y at hy ha hY0
  generalize |div_round_closest_int x d| = A at ha
  generalize |d.tdiv 2| = H at hh hy
  generalize |x| = X at hX0 hX1 hy
  generalize |d| = D at hh hD0 hD1 ha
  have hA : Y / D < 16773122 := (Int.ediv_lt_iff_lt_mul (by omega)).mpr (by omega)
  omega

theorem fits_of_abs_le (x b : Int) (h : |x| ≤ b) (hb : b ≤ 2147483647) : fits_s32 x := by
  rw [abs_le] at h
  unfold fits_s32
  omega

/-- C10: for PTAT and THCODE triplets with entries in `0 .. 0xFFF`, `ptat[0] ≠ ptat[2]` and
both slope divisors nonzero, every value an operation of `rcar_gen3_thermal_calc_coefs`
produces fits a C `int`, and the four coefficients equal the same formulas evaluated over
unbounded integers. -/
theorem calc_coefs_no_overflow (ptat thcode : Int × Int × Int)
    (hp : triplet_12bit ptat) (ht : triplet_12bit thcode) (h0 : ptat.1 ≠ ptat.2.2)
    (h1 : s32 (calc_tj_2 ptat - FIXPT_INT TJ_3) ≠ 0)
    (h2 : s32 (calc_tj_2 ptat - FIXPT_INT TJ_1) ≠ 0) :
    (∀ v ∈ calc_coefs_intermediates ptat thcode, fits_s32 v) ∧
    rcar_gen3_thermal_calc_coefs ptat thcode = calc_coefs_int ptat thcode := by
  obtain ⟨p0, p1, p2⟩ := ptat
  obtain ⟨t0, t1, t2⟩ := thcode
  unfold triplet_12bit at hp ht
  simp only at hp ht h0
  have hm0 : p0 - p2 ≠ 0 := sub_ne_zero.mpr h0
  obtain ⟨hq1, hq2, hq3⟩ := tj_quotient_bounds (p1 - p2) (p0 - p2) (by omega) (by omega) hm0
  have e41 : FIXPT_INT 41 = 41 * 2 ^ 7 := by decide
  have eTJ3 : FIXPT_INT TJ_3 = TJ_3 * 2 ^ 7 := by decide
  have eTJ1 : FIXPT_INT TJ_1 = TJ_1 * 2 ^ 7 := by decide
  have vTJ3 : TJ_3 = -41 := rfl
  have vTJ1 : TJ_1 = 96 := rfl
  have etj : calc_tj_2 (p0, p1, p2) = calc_tj_2_int (p0, p1, p2) := by
    unfold calc_tj_2 calc_tj_2_int
    rw [e41]
    unfold FIXPT_INT FIXPT_SHIFT
    simp only
    have f5 : s32 (((p1 - p2) * 137 * 2 ^ 7).tdiv (p0 - p2)) =
        ((p1 - p2) * 137 * 2 ^ 7).tdiv (p0 - p2) :=
      s32_eq_self _ (by unfold fits_s32; omega)
    have f6 : s32 (((p1 - p2) * 137 * 2 ^ 7).tdiv (p0 - p2) - 41 * 2 ^ 7) =
        ((p1 - p2) * 137 * 2 ^ 7).tdiv (p0 - p2) - 41 * 2 ^ 7 :=
      s32_eq_self _ (by unfold fits_s32; omega)
    rw [s32_eq_self (p1 - p2) (by unfold fits_s32; omega),
      s32_eq_self ((p1 - p2) * 137) (by unfold fits_s32; omega),
      s32_eq_self ((p1 - p2) * 137 * 2 ^ 7) (by unfold fits_s32; omega),
      s32_eq_self (p0 - p2) (by unfold fits_s32; omega), f5, f6]
  rw [etj, eTJ3] at h1
  rw [etj, eTJ1] at h2
  have hd1f : fits_s32 (calc_tj_2_int (p0, p1, p2) - TJ_3 * 2 ^ 7) := by
    unfold calc_tj_2_int fits_s32; simp only; rw [vTJ3]; omega
  have hd2f : fits_s32 (calc_tj_2_int (p0, p1, p2) - TJ_1 * 2 ^ 7) := by
    unfold calc_tj_2_int fits_s32; simp only; rw [vTJ1]; omega
  rw [s32_eq_self _ hd1f] at h1
  rw [s32_eq_self _ hd2f] at h2
  obtain ⟨hs1a, hs1b, hs1c⟩ := slope_division_bounds ((t1 - t2) * 2 ^ 7 * 2 ^ 7)
    (calc_tj_2_int (p0, p1, p2) - TJ_3 * 2 ^ 7) (by omega)
    (by unfold calc_tj_2_int at h1 ⊢; simp only at h1 ⊢; rw [vTJ3] at h1 ⊢; omega)
    (by unfold calc_tj_2_int; simp only; rw [vTJ3]; omega)
  obtain ⟨hs2a, hs2b, hs2c⟩ := slope_division_bounds ((t1 - t0) * 2 ^ 7 * 2 ^ 7)
    (calc_tj_2_int (p0, p1, p2) - TJ_1 * 2 ^ 7) (by omega)
    (by unfold calc_tj_2_int at h2 ⊢; simp only at h2 ⊢; rw [vTJ1] at h2 ⊢; omega)
    (by unfold calc_tj_2_int; simp only; rw [vTJ1]; omega)
  have ea1 : FIXPT_DIV (FIXPT_INT (s32 (t1 - t2))) (calc_tj_2_int (p0, p1, p2) - TJ_3 * 2 ^ 7)
      = div_round_closest_int ((t1 - t2) * 2 ^ 7 * 2 ^ 7)
          (calc_tj_2_int (p0, p1, p2) - TJ_3 * 2 ^ 7) := by
    unfold FIXPT_DIV FIXPT_INT FIXPT_SHIFT
    rw [s32_eq_self (t1 - t2) (by unfold fits_s32; omega),
      s32_eq_self ((t1 - t2) * 2 ^ 7) (by unfold fits_s32; omega),
      s32_eq_self ((t1 - t2) * 2 ^ 7 * 2 ^ 7) (by unfold fits_s32; omega)]
    exact DIV_ROUND_CLOSEST_eq_int _ _ (fits_of_abs_le _ _ hs1a (by norm_num))
      (fits_of_abs_le _ _ hs1b (by norm_num)) (fits_of_abs_le _ _ hs1c (by norm_num))
  have ea2 : FIXPT_DIV (FIXPT_INT (s32 (t1 - t0))) (calc_tj_2_int (p0, p1, p2) - TJ_1 * 2 ^ 7)
      = div_round_closest_int ((t1 - t0) * 2 ^ 7 * 2 ^ 7)
          (calc_tj_2_int (p0, p1, p2) - TJ_1 * 2 ^ 7) := by
    unfold FIXPT_DIV FIXPT_INT FIXPT_SHIFT
    rw [s32_eq_self (t1 - t0) (by unfold fits_s32; omega),
      s32_eq_self ((t1 - t0) * 2 ^ 7) (by unfold fits_s32; omega),
      s32_eq_self ((t1 - t0) * 2 ^ 7 * 2 ^ 7) (by unfold fits_s32; omega)]
    exact DIV_ROUND_CLOSEST_eq_int _ _ (fits_of_abs_le _ _ hs2a (by norm_num))
      (fits_of_abs_le _ _ hs2b (by norm_num)) (fits_of_abs_le _ _ hs2c (by norm_num))
  rw [abs_le] at hs1a hs1b hs1c hs2a hs2b hs2c
  constructor
  · intro v hv
    unfold calc_coefs_intermediates at hv
    simp only [List.mem_cons, List.mem_singleton, List.not_mem_nil, or_false] at hv
    rw [vTJ3, vTJ1] at hv
    rw [vTJ3] at hs1a hs1b hs1c
    rw [vTJ1] at hs2a hs2b hs2c
    unfold calc_tj_2_int at hv hs1a hs1b hs1c hs2a hs2b hs2c
    simp only at hv hs1a hs1b hs1c hs2a hs2b hs2c
    unfold fits_s32
    rcases hv with h | h | h | h | h | h | h | h | h | h | h | h | h | h | h | h | h | h | h
      | h | h | h | h | h | h | h | h | h | h <;> (rw [h]; omega)
  · unfold rcar_gen3_thermal_calc_coefs calc_coefs_int
    simp only
    rw [etj, eTJ3, eTJ1, s32_eq_self _ hd1f, s32_eq_self _ hd2f, ea1, ea2]
    unfold FIXPT_INT FIXPT_SHIFT
    generalize div_round_closest_int ((t1 - t2) * 2 ^ 7 * 2 ^ 7)
      (calc_tj_2_int (p0, p1, p2) - TJ_3 * 2 ^ 7) = A1 at hs1c ⊢
    generalize div_round_closest_int ((t1 - t0) * 2 ^ 7 * 2 ^ 7)
      (calc_tj_2_int (p0, p1, p2) - TJ_1 * 2 ^ 7) = A2 at hs2c ⊢
    rw [vTJ3, vTJ1]
    rw [s32_eq_self (A1 * -41) (by unfold fits_s32; omega),
      s32_eq_self (A2 * 96) (by unfold fits_s32; omega),
      s32_eq_self (t2 * 2 ^ 7) (by unfold fits_s32; omega),
      s32_eq_self (t0 * 2 ^ 7) (by unfold fits_s32; omega),
      s32_eq_self (t2 * 2 ^ 7 - A1 * -41) (by unfold fits_s32; omega),
      s32_eq_self (t0 * 2 ^ 7 - A2 * 96) (by unfold fits_s32; omega)]

/-- Witness of C10 at a worst case: `ptat = (4094, 4095, 0)` makes the second slope divisor
`4`, and `thcode = (0, 4095, 0)` makes both dividends `4095 * 2^14`. -/
theorem calc_coefs_no_overflow_witness :
    (∀ v ∈ calc_coefs_intermediates (4094, 4095, 0) (0, 4095, 0), fits_s32 v) ∧
    rcar_gen3_thermal_calc_coefs (4094, 4095, 0) (0, 4095, 0) =
      calc_coefs_int (4094, 4095, 0) (0, 4095, 0) :=
  calc_coefs_no_overflow (4094, 4095, 0) (0, 4095, 0) (by decide) (by decide) (by decide)
    (by decide) (by decide)

/-! ## Loops over the channels -/

theorem chan_events_succ (ev : Nat → rcar_gen3_thermal_tsc → List Event)
    (tscs : List rcar_gen3_thermal_tsc) (n : Nat) :
    chan_events ev tscs (n + 1) = chan_events ev tscs n ++
      (match tscs[n]? with
       | none => []
       | some t => ev n t) := by
  unfold chan_events
  rw [List.range_succ, List.flatMap_append]
  simp

/-- A loop `for (i = 0; i < n; i++)` whose body acts as `chan_step g ev` keeps the channel
count and the init function, appends the events of the channels in order, and replaces the
context of every channel below `n` by its image under `g`. -/
theorem chan_loop (g : Nat → rcar_gen3_thermal_tsc → rcar_gen3_thermal_tsc)
    (ev : Nat → rcar_gen3_thermal_tsc → List Event)
    (F : rcar_gen3_thermal_priv → Nat → rcar_gen3_thermal_priv)
    (p : rcar_gen3_thermal_priv)
    (hF : ∀ q i, q.thermal_init = p.thermal_init → q.num_tscs = p.num_tscs →
      F q i = chan_step g ev q i) (n : Nat) :
    ((List.range n).foldl F p).num_tscs = p.num_tscs ∧
    ((List.range n).foldl F p).thermal_init = p.thermal_init ∧
    ((List.range n).foldl F p).trace = p.trace ++ chan_events ev p.tscs n ∧
    ((List.range n).foldl F p).tscs.length = p.tscs.length ∧
    ∀ j, ((List.range n).foldl F p).tscs[j]? =
      if j < n then (p.tscs[j]?).map (g j) else p.tscs[j]? := by
  induction n with
  | zero => simp [chan_events]
  | succ n ih =>
    obtain ⟨ih1, ih2, ih3, ih4, ih5⟩ := ih
    rw [List.range_succ, List.foldl_append]
    simp only [List.foldl_cons, List.foldl_nil]
    rw [hF _ n ih2 ih1, chan_events_succ]
    have hn := ih5 n
    simp only [lt_irrefl, if_false] at hn
    unfold chan_step
    rw [hn]
    cases hpn : p.tscs[n]? with
    | none =>
      simp only [List.append_nil]
      refine ⟨ih1, ih2, ih3, ih4, ?_⟩
      intro j
      rw [ih5 j]
      by_cases hj : j < n
      · simp [hj, Nat.lt_succ_of_lt hj]
      · by_cases hjn : j = n
        · subst hjn; simp [hpn]
        · have : ¬ j < n + 1 := by omega
          simp [hj, this]
    | some t =>
      simp only
      refine ⟨ih1, ih2, ?_, ?_, ?_⟩
      · rw [ih3, List.append_assoc]
      · rw [List.length_set, ih4]
      · intro j
        rw [List.getElem?_set, ih5 j]
        have hlen : n < ((List.range n).foldl F p).tscs.length := by
          rw [ih4]
          by_contra hc
          rw [List.getElem?_eq_none (by omega)] at hpn
          exact Option.noConfusion hpn
        by_cases hjn : n = j
        · subst hjn; simp [hlen, hpn]
        · by_cases hj : j < n
          · simp [hjn, hj, Nat.lt_succ_of_lt hj]
          · have : ¬ j < n + 1 := by omega
            simp [hjn, hj, this]

theorem armed_mask_eq : armed_mask = 0x0A := by decide

theorem set_same (l : List rcar_gen3_thermal_tsc) (i : Nat) (t : rcar_gen3_thermal_tsc)
    (h : l[i]? = some t) : l.set i t = l := by
  apply List.ext_getElem?
  intro j
  rw [List.getElem?_set]
  by_cases hij : i = j
  · subst hij
    have hlen : i < l.length := by
      by_contra hc
      rw [List.getElem?_eq_none (by omega)] at h
      exact Option.noConfusion h
    simp [hlen, h]
  · simp [hij]

theorem getElem?_lt_length (l : List rcar_gen3_thermal_tsc) (i : Nat)
    (t : rcar_gen3_thermal_tsc) (h : l[i]? = some t) : i < l.length := by
  by_contra hc
  rw [List.getElem?_eq_none (by omega)] at h
  exact Option.noConfusion h

theorem chan_events_congr (ev1 ev2 : Nat → rcar_gen3_thermal_tsc → List Event)
    (l1 l2 : List rcar_gen3_thermal_tsc) (n : Nat)
    (h : ∀ i, i < n →
      (match l1[i]? with
       | none => []
       | some t => ev1 i t) =
      (match l2[i]? with
       | none => []
       | some t => ev2 i t)) :
    chan_events ev1 l1 n = chan_events ev2 l2 n := by
  induction n with
  | zero => rfl
  | succ n ih =>
    rw [chan_events_succ, chan_events_succ, ih (fun i hi => h i (Nat.lt_succ_of_lt hi)),
      h n (Nat.lt_succ_self n)]

/-- The body of the loop of `rcar_thermal_irq_set` is a channel step. -/
theorem irq_set_body (val : Nat) (q : rcar_gen3_thermal_priv) (i : Nat) :
    (on_tsc q i () (fun c => ((), rcar_gen3_thermal_write c REG_GEN3_IRQMSK val))).2 =
      chan_step (fun _ t => set_reg t REG_GEN3_IRQMSK val)
        (fun i _ => [Event.op i (Op.write REG_GEN3_IRQMSK val)]) q i := by
  unfold on_tsc chan_step
  cases q.tscs[i]? with
  | none => rfl
  | some t => simp [rcar_gen3_thermal_write, set_reg]

/-- Effect of `rcar_thermal_irq_set`. -/
theorem irq_set_spec (p : rcar_gen3_thermal_priv) (b : Bool) :
    (rcar_thermal_irq_set p b).num_tscs = p.num_tscs ∧
    (rcar_thermal_irq_set p b).thermal_init = p.thermal_init ∧
    (rcar_thermal_irq_set p b).trace = p.trace ++ mask_events p (if b then armed_mask else 0) ∧
    (rcar_thermal_irq_set p b).tscs.length = p.tscs.length ∧
    ∀ j, (rcar_thermal_irq_set p b).tscs[j]? =
      if j < p.num_tscs then
        (p.tscs[j]?).map (fun t => set_reg t REG_GEN3_IRQMSK (if b then armed_mask else 0))
      else p.tscs[j]? := by
  unfold rcar_thermal_irq_set mask_events armed_mask
  exact chan_loop _ _ _ p (fun q i _ _ => irq_set_body _ q i) p.num_tscs

theorem irq_unfold (priv : rcar_gen3_thermal_priv) :
    rcar_gen3_thermal_irq priv =
      ((((List.range priv.num_tscs).foldl irq_body
          (irqreturn_t.IRQ_HANDLED, emit priv Event.spin_lock))).1,
       emit (if (((List.range priv.num_tscs).foldl irq_body
          (irqreturn_t.IRQ_HANDLED, emit priv Event.spin_lock))).1 = irqreturn_t.IRQ_WAKE_THREAD
        then rcar_thermal_irq_set (((List.range priv.num_tscs).foldl irq_body
          (irqreturn_t.IRQ_HANDLED, emit priv Event.spin_lock))).2 false
        else (((List.range priv.num_tscs).foldl irq_body
          (irqreturn_t.IRQ_HANDLED, emit priv Event.spin_lock))).2) Event.spin_unlock) := by
  rfl

theorem irq_body_eq (acc : irqreturn_t × rcar_gen3_thermal_priv) (i : Nat) :
    irq_body acc i =
      (if irq_status acc.2 i ≠ 0 then irqreturn_t.IRQ_WAKE_THREAD else acc.1,
       chan_step (fun _ t => set_reg t REG_GEN3_IRQSTR 0)
        (fun i t => [Event.op i (Op.read REG_GEN3_IRQSTR (t.base REG_GEN3_IRQSTR)),
          Event.op i (Op.write REG_GEN3_IRQSTR 0)]) acc.2 i) := by
  unfold irq_body on_tsc chan_step irq_status
  cases h : acc.2.tscs[i]? with
  | none => simp [h]
  | some t =>
    have hlen := getElem?_lt_length _ _ _ h
    simp [h, hlen, rcar_gen3_thermal_read, rcar_gen3_thermal_write, set_reg]


theorem irq_loop (p : rcar_gen3_thermal_priv) (n : Nat) :
    ((List.range n).foldl irq_body (irqreturn_t.IRQ_HANDLED, p)).2 =
      (List.range n).foldl (chan_step (fun _ t => set_reg t REG_GEN3_IRQSTR 0)
        (fun i t => [Event.op i (Op.read REG_GEN3_IRQSTR (t.base REG_GEN3_IRQSTR)),
          Event.op i (Op.write REG_GEN3_IRQSTR 0)])) p ∧
    ((∀ i, i < n → irq_status p i = 0) →
      ((List.range n).foldl irq_body (irqreturn_t.IRQ_HANDLED, p)).1
        = irqreturn_t.IRQ_HANDLED) ∧
    ((∃ i, i < n ∧ irq_status p i ≠ 0) →
      ((List.range n).foldl irq_body (irqreturn_t.IRQ_HANDLED, p)).1
        = irqreturn_t.IRQ_WAKE_THREAD) := by
  induction n with
  | zero =>
    refine ⟨rfl, fun _ => rfl, ?_⟩
    rintro ⟨i, hi, _⟩
    exact absurd hi (Nat.not_lt_zero i)
  | succ n ih =>
    obtain ⟨ih1, ih2, ih3⟩ := ih
    rw [List.range_succ, List.foldl_append, List.foldl_append]
    simp only [List.foldl_cons, List.foldl_nil]
    rw [irq_body_eq, ih1]
    have hst : irq_status ((List.range n).foldl
        (chan_step (fun _ t => set_reg t REG_GEN3_IRQSTR 0)
          (fun i t => [Event.op i (Op.read REG_GEN3_IRQSTR (t.base REG_GEN3_IRQSTR)),
            Event.op i (Op.write REG_GEN3_IRQSTR 0)])) p) n = irq_status p n := by
      unfold irq_status
      have h := (chan_loop (fun _ t => set_reg t REG_GEN3_IRQSTR 0)
        (fun i t => [Event.op i (Op.read REG_GEN3_IRQSTR (t.base REG_GEN3_IRQSTR)),
          Event.op i (Op.write REG_GEN3_IRQSTR 0)]) _ p (fun q i _ _ => rfl) n).2.2.2.2 n
      simp only [lt_irrefl, if_false] at h
      rw [h]
    rw [hst]
    refine ⟨rfl, ?_, ?_⟩
    · intro h0
      simp only [h0 n (Nat.lt_succ_self n), ne_eq, not_true_eq_false, if_false]
      exact ih2 (fun i hi => h0 i (Nat.lt_succ_of_lt hi))
    · rintro ⟨i, hi, hne⟩
      by_cases hn : irq_status p n = 0
      · simp only [hn, ne_eq, not_true_eq_false, if_false]
        have hin : i < n := by
          rcases Nat.lt_succ_iff_lt_or_eq.mp hi with h | h
          · exact h
          · subst h; exact absurd hn hne
        exact ih3 ⟨i, hin, hne⟩
      · simp only [ne_eq, hn, not_false_eq_true, if_true]

theorem mem_chan_events (ev : Nat → rcar_gen3_thermal_tsc → List Event)
    (tscs : List rcar_gen3_thermal_tsc) (n : Nat) (e : Event)
    (h : e ∈ chan_events ev tscs n) : ∃ i t, i < n ∧ tscs[i]? = some t ∧ e ∈ ev i t := by
  induction n with
  | zero => simp [chan_events] at h
  | succ n ih =>
    rw [chan_events_succ, List.mem_append] at h
    rcases h with h | h
    · obtain ⟨i, t, hi, ht, he⟩ := ih h
      exact ⟨i, t, Nat.lt_succ_of_lt hi, ht, he⟩
    · cases hn : tscs[n]? with
      | none => rw [hn] at h; simp at h
      | some t => rw [hn] at h; exact ⟨n, t, Nat.lt_succ_self n, hn, h⟩

theorem mask_events_eq (p : rcar_gen3_thermal_priv) (val : Nat)
    (hwf : p.num_tscs ≤ p.tscs.length) :
    mask_events p val =
      (List.range p.num_tscs).map (fun i => Event.op i (Op.write REG_GEN3_IRQMSK val)) := by
  unfold mask_events
  generalize p.num_tscs = n at hwf
  induction n with
  | zero => rfl
  | succ n ih =>
    rw [chan_events_succ, ih (by omega), List.range_succ, List.map_append]
    have hlt : n < p.tscs.length := by omega
    rw [List.getElem?_eq_getElem hlt]
    rfl

theorem zone_events_eq (p : rcar_gen3_thermal_priv) (hwf : p.num_tscs ≤ p.tscs.length) :
    zone_events p =
      (p.tscs.take p.num_tscs).map (fun t => Event.thermal_zone_device_update t.zone) := by
  unfold zone_events
  generalize p.num_tscs = n at hwf
  induction n with
  | zero => rfl
  | succ n ih =>
    rw [chan_events_succ, ih (by omega), List.take_succ, List.map_append]
    have hlt : n < p.tscs.length := by omega
    rw [List.getElem?_eq_getElem hlt]
    rfl

/-- The body of the first loop of `rcar_gen3_thermal_irq_thread` is a channel step. -/
theorem irq_thread_body (q : rcar_gen3_thermal_priv) (i : Nat) :
    (match q.tscs[i]? with
      | none => q
      | some tsc => emit q (Event.thermal_zone_device_update tsc.zone)) =
      chan_step (fun _ t => t) (fun _ t => [Event.thermal_zone_device_update t.zone]) q i := by
  unfold chan_step
  cases h : q.tscs[i]? with
  | none => rfl
  | some t => simp only [emit, set_same _ _ _ h]

theorem irq_set_true_spec (p : rcar_gen3_thermal_priv) :
    (rcar_thermal_irq_set p true).num_tscs = p.num_tscs ∧
    (rcar_thermal_irq_set p true).thermal_init = p.thermal_init ∧
    (rcar_thermal_irq_set p true).trace = p.trace ++ mask_events p armed_mask ∧
    (rcar_thermal_irq_set p true).tscs.length = p.tscs.length ∧
    ∀ j, (rcar_thermal_irq_set p true).tscs[j]? =
      if j < p.num_tscs then (p.tscs[j]?).map (fun t => set_reg t REG_GEN3_IRQMSK armed_mask)
      else p.tscs[j]? :=
  irq_set_spec p true

theorem irq_set_false_spec (p : rcar_gen3_thermal_priv) :
    (rcar_thermal_irq_set p false).num_tscs = p.num_tscs ∧
    (rcar_thermal_irq_set p false).thermal_init = p.thermal_init ∧
    (rcar_thermal_irq_set p false).trace = p.trace ++ mask_events p 0 ∧
    (rcar_thermal_irq_set p false).tscs.length = p.tscs.length ∧
    ∀ j, (rcar_thermal_irq_set p false).tscs[j]? =
      if j < p.num_tscs then (p.tscs[j]?).map (fun t => set_reg t REG_GEN3_IRQMSK 0)
      else p.tscs[j]? :=
  irq_set_spec p false

theorem mask_events_congr (p q : rcar_gen3_thermal_priv) (val : Nat)
    (h1 : p.tscs.length = q.tscs.length) (h2 : p.num_tscs = q.num_tscs) :
    mask_events p val = mask_events q val := by
  unfold mask_events
  rw [h2]
  apply chan_events_congr
  intro i _
  by_cases hi : i < p.tscs.length
  · rw [List.getElem?_eq_getElem hi, List.getElem?_eq_getElem (h1 ▸ hi)]
  · rw [List.getElem?_eq_none (by omega), List.getElem?_eq_none (by omega)]

/-- Effect of `rcar_gen3_thermal_irq_thread`. -/
theorem irq_thread_spec (q : rcar_gen3_thermal_priv) :
    (rcar_gen3_thermal_irq_thread q).1 = irqreturn_t.IRQ_HANDLED ∧
    (rcar_gen3_thermal_irq_thread q).2.num_tscs = q.num_tscs ∧
    (rcar_gen3_thermal_irq_thread q).2.trace = q.trace ++ zone_events q ++
      [Event.spin_lock_irqsave] ++ mask_events q armed_mask ++ [Event.spin_unlock_irqrestore] ∧
    ∀ j, (rcar_gen3_thermal_irq_thread q).2.tscs[j]? =
      if j < q.num_tscs then (q.tscs[j]?).map (fun t => set_reg t REG_GEN3_IRQMSK armed_mask)
      else q.tscs[j]? := by
  obtain ⟨l1, _, l3, l4, l5⟩ := chan_loop (fun _ t => t)
    (fun _ t => [Event.thermal_zone_device_update t.zone])
    (fun p i =>
      match p.tscs[i]? with
      | none => p
      | some tsc => emit p (Event.thermal_zone_device_update tsc.zone))
    q (fun p i _ _ => irq_thread_body p i) q.num_tscs
  have hth : rcar_gen3_thermal_irq_thread q = (irqreturn_t.IRQ_HANDLED,
      emit (rcar_thermal_irq_set (emit ((List.range q.num_tscs).foldl
        (fun p i =>
          match p.tscs[i]? with
          | none => p
          | some tsc => emit p (Event.thermal_zone_device_update tsc.zone)) q)
        Event.spin_lock_irqsave) true) Event.spin_unlock_irqrestore) := rfl
  rw [hth]
  generalize (List.range q.num_tscs).foldl
      (fun p i =>
        match p.tscs[i]? with
        | none => p
        | some tsc => emit p (Event.thermal_zone_device_update tsc.zone)) q = q1 at l1 l3 l4 l5
  have htscs : ∀ j : Nat, q1.tscs[j]? = q.tscs[j]? := by
    intro j
    rw [l5 j]
    split
    · cases q.tscs[j]? <;> rfl
    · rfl
  obtain ⟨m1, _, m3, _, m5⟩ := irq_set_true_spec (emit q1 Event.spin_lock_irqsave)
  have hme : mask_events (emit q1 Event.spin_lock_irqsave) armed_mask =
      mask_events q armed_mask := mask_events_congr _ _ _ l4 l1
  refine ⟨rfl, m1.trans l1, ?_, ?_⟩
  · show (rcar_thermal_irq_set (emit q1 Event.spin_lock_irqsave) true).trace ++
      [Event.spin_unlock_irqrestore] = _
    rw [m3, hme]
    show (q1.trace ++ [Event.spin_lock_irqsave]) ++ _ ++ _ = _
    rw [l3]
    rfl
  · intro j
    show (rcar_thermal_irq_set (emit q1 Event.spin_lock_irqsave) true).tscs[j]? = _
    rw [m5 j]
    have e1 : (emit q1 Event.spin_lock_irqsave).num_tscs = q.num_tscs := l1
    have e2 : (emit q1 Event.spin_lock_irqsave).tscs[j]? = q.tscs[j]? := htscs j
    rw [e1, e2]

theorem set_reg_base_ne (t : rcar_gen3_thermal_tsc) (reg reg' data : Nat) (h : reg' ≠ reg) :
    (set_reg t reg data).base reg' = t.base reg' := by
  simp [set_reg, Function.update, h]

theorem set_reg_base_eq (t : rcar_gen3_thermal_tsc) (reg data : Nat) :
    (set_reg t reg data).base reg = data := by
  simp [set_reg]

/-- Effect of `rcar_gen3_thermal_irq`, depending on the value of `ret` after its loop. -/
theorem irq_spec (p : rcar_gen3_thermal_priv) :
    ((∀ i, i < p.num_tscs → irq_status p i = 0) →
      (rcar_gen3_thermal_irq p).1 = irqreturn_t.IRQ_HANDLED ∧
      (rcar_gen3_thermal_irq p).2.num_tscs = p.num_tscs ∧
      (rcar_gen3_thermal_irq p).2.tscs.length = p.tscs.length ∧
      (rcar_gen3_thermal_irq p).2.trace =
        p.trace ++ [Event.spin_lock] ++ status_events p ++ [Event.spin_unlock] ∧
      ∀ j : Nat, (rcar_gen3_thermal_irq p).2.tscs[j]? =
        if j < p.num_tscs then (p.tscs[j]?).map (fun t => set_reg t REG_GEN3_IRQSTR 0)
        else p.tscs[j]?) ∧
    ((∃ i, i < p.num_tscs ∧ irq_status p i ≠ 0) →
      (rcar_gen3_thermal_irq p).1 = irqreturn_t.IRQ_WAKE_THREAD ∧
      (rcar_gen3_thermal_irq p).2.num_tscs = p.num_tscs ∧
      (rcar_gen3_thermal_irq p).2.tscs.length = p.tscs.length ∧
      (rcar_gen3_thermal_irq p).2.trace =
        p.trace ++ [Event.spin_lock] ++ status_events p ++ mask_events p 0 ++
          [Event.spin_unlock] ∧
      ∀ j : Nat, (rcar_gen3_thermal_irq p).2.tscs[j]? =
        if j < p.num_tscs then
          (p.tscs[j]?).map (fun t => set_reg (set_reg t REG_GEN3_IRQSTR 0) REG_GEN3_IRQMSK 0)
        else p.tscs[j]?) := by
  obtain ⟨k1, k2, k3⟩ := irq_loop (emit p Event.spin_lock) p.num_tscs
  obtain ⟨l1, _, l3, l4, l5⟩ := chan_loop (fun _ t => set_reg t REG_GEN3_IRQSTR 0)
    (fun i t => [Event.op i (Op.read REG_GEN3_IRQSTR (t.base REG_GEN3_IRQSTR)),
      Event.op i (Op.write REG_GEN3_IRQSTR 0)]) _ (emit p Event.spin_lock)
    (fun q i _ _ => rfl) p.num_tscs
  rw [← k1] at l1 l3 l4 l5
  rw [irq_unfold]
  generalize (List.range p.num_tscs).foldl irq_body
    (irqreturn_t.IRQ_HANDLED, emit p Event.spin_lock) = acc at k1 k2 k3 l1 l3 l4 l5
  obtain ⟨ret, q⟩ := acc
  simp only at k2 k3 l1 l3 l4 l5 ⊢
  constructor
  · intro h0
    have hret : ret = irqreturn_t.IRQ_HANDLED := k2 h0
    subst hret
    refine ⟨rfl, l1, l4, ?_, fun j => l5 j⟩
    show q.trace ++ [Event.spin_unlock] = _
    rw [l3]
    rfl
  · intro h1
    have hret : ret = irqreturn_t.IRQ_WAKE_THREAD := k3 h1
    subst hret
    obtain ⟨m1, _, m3, m4, m5⟩ := irq_set_false_spec q
    have hme : mask_events q 0 = mask_events p 0 := mask_events_congr _ _ _ l4 l1
    refine ⟨rfl, m1.trans l1, m4.trans l4, ?_, ?_⟩
    · show (rcar_thermal_irq_set q false).trace ++ [Event.spin_unlock] = _
      rw [m3, l3, hme]
      rfl
    · intro j
      show (rcar_thermal_irq_set q false).tscs[j]? = _
      rw [m5 j, l5 j]
      have e1 : q.num_tscs = p.num_tscs := l1
      have e3 : (emit p Event.spin_lock).tscs[j]? = p.tscs[j]? := rfl
      rw [e1, e3]
      by_cases hj : j < p.num_tscs
      · simp only [hj, if_true]
        cases p.tscs[j]? <;> rfl
      · simp only [hj, if_false]

theorem zone_events_congr (p q : rcar_gen3_thermal_priv) (h2 : q.num_tscs = p.num_tscs)
    (g : rcar_gen3_thermal_tsc → rcar_gen3_thermal_tsc) (hg : ∀ t, (g t).zone = t.zone)
    (h1 : ∀ j : Nat, q.tscs[j]? = if j < p.num_tscs then (p.tscs[j]?).map g else p.tscs[j]?) :
    zone_events q = zone_events p := by
  unfold zone_events
  rw [h2]
  apply chan_events_congr
  intro i hi
  rw [h1 i]
  simp only [hi, if_true]
  cases p.tscs[i]? with
  | none => rfl
  | some t => simp [hg t]

/-- C5: on a controller with `n` registered channels, if every status read is zero the
handler `rcar_gen3_thermal_irq` returns `IRQ_HANDLED` (the worker is not woken), writes no
interrupt-mask register and notifies no zone: it only reads and clears the status registers
under the lock.  If some status read is nonzero it returns `IRQ_WAKE_THREAD` after writing `0`
to the mask register of every channel; the worker `rcar_gen3_thermal_irq_thread` then notifies
the zone of each of the `n` channels once, in order, and only afterwards writes the armed mask
`0x0A` to the mask register of every channel. -/
theorem irq_coordinator (p : rcar_gen3_thermal_priv) (hwf : p.num_tscs ≤ p.tscs.length) :
    ((∀ i, i < p.num_tscs → irq_status p i = 0) →
      (rcar_gen3_thermal_irq p).1 = irqreturn_t.IRQ_HANDLED ∧
      (rcar_gen3_thermal_irq p).2.trace =
        p.trace ++ [Event.spin_lock] ++ status_events p ++ [Event.spin_unlock] ∧
      (∀ e, e ∈ [Event.spin_lock] ++ status_events p ++ [Event.spin_unlock] →
        (∀ i v, e ≠ Event.op i (Op.write REG_GEN3_IRQMSK v)) ∧
        (∀ z, e ≠ Event.thermal_zone_device_update z)) ∧
      (∀ (j : Nat) t, p.tscs[j]? = some t →
        ∃ t', (rcar_gen3_thermal_irq p).2.tscs[j]? = some t' ∧
          t'.base REG_GEN3_IRQMSK = t.base REG_GEN3_IRQMSK)) ∧
    ((∃ i, i < p.num_tscs ∧ irq_status p i ≠ 0) →
      (rcar_gen3_thermal_irq p).1 = irqreturn_t.IRQ_WAKE_THREAD ∧
      (rcar_gen3_thermal_irq p).2.trace =
        p.trace ++ [Event.spin_lock] ++ status_events p ++
          (List.range p.num_tscs).map (fun i => Event.op i (Op.write REG_GEN3_IRQMSK 0)) ++
          [Event.spin_unlock] ∧
      (∀ j : Nat, j < p.num_tscs →
        ∃ t', (rcar_gen3_thermal_irq p).2.tscs[j]? = some t' ∧ t'.base REG_GEN3_IRQMSK = 0) ∧
      (rcar_gen3_thermal_irq_thread (rcar_gen3_thermal_irq p).2).1
        = irqreturn_t.IRQ_HANDLED ∧
      (rcar_gen3_thermal_irq_thread (rcar_gen3_thermal_irq p).2).2.trace =
        (rcar_gen3_thermal_irq p).2.trace ++
          (p.tscs.take p.num_tscs).map (fun t => Event.thermal_zone_device_update t.zone) ++
          [Event.spin_lock_irqsave] ++
          (List.range p.num_tscs).map (fun i => Event.op i (Op.write REG_GEN3_IRQMSK 0x0A)) ++
          [Event.spin_unlock_irqrestore] ∧
      (p.tscs.take p.num_tscs).length = p.num_tscs ∧
      (∀ j : Nat, j < p.num_tscs →
        ∃ t', (rcar_gen3_thermal_irq_thread (rcar_gen3_thermal_irq p).2).2.tscs[j]? = some t' ∧
          t'.base REG_GEN3_IRQMSK = 0x0A)) := by
  obtain ⟨hA, hB⟩ := irq_spec p
  constructor
  · intro h0
    obtain ⟨a1, _, _, a3, a4⟩ := hA h0
    refine ⟨a1, a3, ?_, ?_⟩
    · intro e he
      simp only [List.mem_append, List.mem_singleton] at he
      rcases he with (he | he) | he
      · subst he
        exact ⟨fun _ _ h => Event.noConfusion h, fun _ h => Event.noConfusion h⟩
      · obtain ⟨i, t, _, _, hm⟩ := mem_chan_events _ _ _ _ he
        simp only [List.mem_cons, List.mem_singleton, List.not_mem_nil, or_false] at hm
        rcases hm with hm | hm
        · subst hm
          refine ⟨fun _ _ h => ?_, fun _ h => Event.noConfusion h⟩
          injection h with _ h2
          exact Op.noConfusion h2
        · subst hm
          refine ⟨fun _ _ h => ?_, fun _ h => Event.noConfusion h⟩
          injection h with _ h2
          injection h2 with h3 _
          exact absurd h3 (by decide)
      · subst he
        exact ⟨fun _ _ h => Event.noConfusion h, fun _ h => Event.noConfusion h⟩
    · intro j t hj
      rw [a4 j, hj]
      by_cases hjn : j < p.num_tscs
      · simp only [hjn, if_true, Option.map_some']
        exact ⟨_, rfl, set_reg_base_ne _ _ _ _ (by decide)⟩
      · simp only [hjn, if_false]
        exact ⟨t, rfl, rfl⟩
  · intro h1
    obtain ⟨b1, b2, b5, b3, b4⟩ := hB h1
    obtain ⟨c1, _, c3, c4⟩ := irq_thread_spec (rcar_gen3_thermal_irq p).2
    have hz : zone_events (rcar_gen3_thermal_irq p).2 = zone_events p :=
      zone_events_congr p _ b2
        (fun t => set_reg (set_reg t REG_GEN3_IRQSTR 0) REG_GEN3_IRQMSK 0) (fun _ => rfl) b4
    have hm : mask_events (rcar_gen3_thermal_irq p).2 armed_mask = mask_events p armed_mask :=
      mask_events_congr _ _ _ b5 b2
    refine ⟨b1, ?_, ?_, c1, ?_, ?_, ?_⟩
    · rw [b3, mask_events_eq p 0 hwf]
    · intro j hj
      rw [b4 j]
      have hlt : j < p.tscs.length := by omega
      simp only [hj, if_true, List.getElem?_eq_getElem hlt, Option.map_some']
      exact ⟨_, rfl, set_reg_base_eq _ _ _⟩
    · rw [c3, hz, hm, zone_events_eq p hwf, mask_events_eq p armed_mask hwf, armed_mask_eq]
    · rw [List.length_take]
      omega
    · intro j hj
      rw [c4 j, b2, b4 j]
      have hlt : j < p.tscs.length := by omega
      simp only [hj, if_true, List.getElem?_eq_getElem hlt, Option.map_some']
      exact ⟨_, rfl, by rw [set_reg_base_eq, armed_mask_eq]⟩

/-- Witness of C5: with statuses `(0, 4)` the handler wakes the worker, with statuses `(0, 0)`
it does not. -/
theorem irq_coordinator_witness :
    (rcar_gen3_thermal_irq (two_channel_priv 4)).1 = irqreturn_t.IRQ_WAKE_THREAD ∧
    (rcar_gen3_thermal_irq (two_channel_priv 0)).1 = irqreturn_t.IRQ_HANDLED :=
  ⟨((irq_coordinator (two_channel_priv 4) (by decide)).2 ⟨1, by decide, by decide⟩).1,
   ((irq_coordinator (two_channel_priv 0) (by decide)).1 (by decide)).1⟩

/-! ## The init sequences -/

/-- Both init sequences leave the coefficients, the thresholds and the zone alone, leave the
trip registers alone, write `0` to the interrupt-mask register, and only append to the log
accesses that are not a write of the armed mask to the interrupt-mask register. -/
theorem thermal_init_spec (fn : thermal_init_fn) (c : Chan) :
    (fn.call c).tsc.coef = c.tsc.coef ∧ (fn.call c).tsc.low = c.tsc.low ∧
    (fn.call c).tsc.high = c.tsc.high ∧ (fn.call c).tsc.zone = c.tsc.zone ∧
    (fn.call c).tsc.base REG_GEN3_IRQTEMP1 = c.tsc.base REG_GEN3_IRQTEMP1 ∧
    (fn.call c).tsc.base REG_GEN3_IRQTEMP2 = c.tsc.base REG_GEN3_IRQTEMP2 ∧
    (fn.call c).tsc.base REG_GEN3_IRQMSK = 0 ∧
    (∀ o, o ∈ (fn.call c).log → o ∈ c.log ∨ o ≠ Op.write REG_GEN3_IRQMSK armed_mask) := by
  cases fn with
  | init =>
    refine ⟨rfl, rfl, rfl, rfl, ?_, ?_, ?_, ?_⟩
    · simp [thermal_init_fn.call, rcar_gen3_thermal_init, rcar_gen3_thermal_write,
        rcar_gen3_thermal_read, usleep_range, Function.update, REG_GEN3_IRQTEMP1,
        REG_GEN3_THCTR, REG_GEN3_IRQEN, REG_GEN3_IRQMSK, REG_GEN3_IRQCTL]
    · simp [thermal_init_fn.call, rcar_gen3_thermal_init, rcar_gen3_thermal_write,
        rcar_gen3_thermal_read, usleep_range, Function.update, REG_GEN3_IRQTEMP2,
        REG_GEN3_THCTR, REG_GEN3_IRQEN, REG_GEN3_IRQMSK, REG_GEN3_IRQCTL]
    · simp [thermal_init_fn.call, rcar_gen3_thermal_init, rcar_gen3_thermal_write,
        rcar_gen3_thermal_read, usleep_range, Function.update,
        REG_GEN3_THCTR, REG_GEN3_IRQEN, REG_GEN3_IRQMSK, REG_GEN3_IRQCTL]
    · intro o ho
      have hlog : (thermal_init_fn.init.call c).log = c.log ++
          [Op.read REG_GEN3_THCTR (c.tsc.base REG_GEN3_THCTR),
           Op.write REG_GEN3_THCTR (c.tsc.base REG_GEN3_THCTR &&& (0xFFFFFFFF ^^^ THCTR_PONM)),
           Op.usleep_range 1000 2000,
           Op.write REG_GEN3_IRQCTL 0x3F,
           Op.write REG_GEN3_IRQMSK 0,
           Op.write REG_GEN3_IRQEN (IRQ_TEMPD1 ||| IRQ_TEMP2),
           Op.read REG_GEN3_THCTR (c.tsc.base REG_GEN3_THCTR &&& (0xFFFFFFFF ^^^ THCTR_PONM)),
           Op.write REG_GEN3_THCTR
             ((c.tsc.base REG_GEN3_THCTR &&& (0xFFFFFFFF ^^^ THCTR_PONM)) ||| THCTR_THSST),
           Op.usleep_range 1000 2000] := by
        simp [thermal_init_fn.call, rcar_gen3_thermal_init, rcar_gen3_thermal_write,
          rcar_gen3_thermal_read, usleep_range, Function.update,
          REG_GEN3_THCTR, REG_GEN3_IRQEN, REG_GEN3_IRQMSK, REG_GEN3_IRQCTL]
      rw [hlog] at ho
      rcases List.mem_append.mp ho with h | h
      · exact Or.inl h
      · right
        intro heq
        subst heq
        simp [REG_GEN3_THCTR, REG_GEN3_IRQEN, REG_GEN3_IRQMSK, REG_GEN3_IRQCTL, armed_mask,
          IRQ_TEMPD1, IRQ_TEMP2, BIT] at h
  | init_r8a7795es1 =>
    refine ⟨rfl, rfl, rfl, rfl, ?_, ?_, ?_, ?_⟩
    · simp [thermal_init_fn.call, rcar_gen3_thermal_init_r8a7795es1, rcar_gen3_thermal_write,
        usleep_range, Function.update, REG_GEN3_IRQTEMP1,
        REG_GEN3_CTSR, REG_GEN3_IRQEN, REG_GEN3_IRQMSK, REG_GEN3_IRQCTL]
    · simp [thermal_init_fn.call, rcar_gen3_thermal_init_r8a7795es1, rcar_gen3_thermal_write,
        usleep_range, Function.update, REG_GEN3_IRQTEMP2,
        REG_GEN3_CTSR, REG_GEN3_IRQEN, REG_GEN3_IRQMSK, REG_GEN3_IRQCTL]
    · simp [thermal_init_fn.call, rcar_gen3_thermal_init_r8a7795es1, rcar_gen3_thermal_write,
        usleep_range, Function.update,
        REG_GEN3_CTSR, REG_GEN3_IRQEN, REG_GEN3_IRQMSK, REG_GEN3_IRQCTL]
    · intro o ho
      have hlog : (thermal_init_fn.init_r8a7795es1.call c).log = c.log ++
          [Op.write REG_GEN3_CTSR CTSR_THBGR,
           Op.write REG_GEN3_CTSR 0x0,
           Op.usleep_range 1000 2000,
           Op.write REG_GEN3_CTSR CTSR_PONM,
           Op.write REG_GEN3_IRQCTL 0x3F,
           Op.write REG_GEN3_IRQMSK 0,
           Op.write REG_GEN3_IRQEN (IRQ_TEMPD1 ||| IRQ_TEMP2),
           Op.write REG_GEN3_CTSR (CTSR_PONM ||| CTSR_AOUT ||| CTSR_THBGR ||| CTSR_VMEN),
           Op.usleep_range 100 200,
           Op.write REG_GEN3_CTSR
             (CTSR_PONM ||| CTSR_AOUT ||| CTSR_THBGR ||| CTSR_VMEN ||| CTSR_VMST ||| CTSR_THSST),
           Op.usleep_range 1000 2000] := by
        simp [thermal_init_fn.call, rcar_gen3_thermal_init_r8a7795es1, rcar_gen3_thermal_write,
          usleep_range]
      rw [hlog] at ho
      rcases List.mem_append.mp ho with h | h
      · exact Or.inl h
      · right
        intro heq
        subst heq
        simp [REG_GEN3_CTSR, REG_GEN3_IRQEN, REG_GEN3_IRQMSK, REG_GEN3_IRQCTL, armed_mask,
          IRQ_TEMPD1, IRQ_TEMP2, BIT] at h

/-! ## Probe -/

theorem concat_getElem? (l : List rcar_gen3_thermal_tsc) (x : rcar_gen3_thermal_tsc) :
    (l ++ [x])[l.length]? = some x := by
  simp

theorem concat_set (l : List rcar_gen3_thermal_tsc) (x y : rcar_gen3_thermal_tsc) :
    (l ++ [x]).set l.length y = l ++ [y] := by
  apply List.ext_getElem?
  intro j
  rw [List.getElem?_set]
  by_cases hj : l.length = j
  · subst hj
    simp
  · simp only [hj, if_false]
    by_cases hlt : j < l.length
    · rw [List.getElem?_append_left hlt, List.getElem?_append_left hlt]
    · rw [List.getElem?_eq_none (by simp; omega), List.getElem?_eq_none (by simp; omega)]

theorem on_tsc_concat {α : Type} (p : rcar_gen3_thermal_priv) (x : rcar_gen3_thermal_tsc)
    (dflt : α) (f : Chan → α × Chan) (l : List rcar_gen3_thermal_tsc) (hp : p.tscs = l ++ [x]) :
    on_tsc p l.length dflt f =
      ((f ⟨x, []⟩).1,
       { tscs := l ++ [(f ⟨x, []⟩).2.tsc], num_tscs := p.num_tscs,
         thermal_init := p.thermal_init,
         trace := p.trace ++ (f ⟨x, []⟩).2.log.map (Event.op l.length) }) := by
  unfold on_tsc
  rw [hp, concat_getElem?]
  simp only [concat_set]

theorem probe_setup_init (p : rcar_gen3_thermal_priv) (w : Nat → Nat) :
    (on_tsc { tscs := p.tscs ++ [fresh_tsc w], num_tscs := p.num_tscs,
              thermal_init := p.thermal_init, trace := p.trace }
      p.tscs.length () (fun c => ((), p.thermal_init.call c))).2 =
    { tscs := p.tscs ++ [(p.thermal_init.call ⟨fresh_tsc w, []⟩).tsc],
      num_tscs := p.num_tscs, thermal_init := p.thermal_init,
      trace := p.trace ++ (p.thermal_init.call ⟨fresh_tsc w, []⟩).log.map
        (Event.op p.tscs.length) } := by
  rw [on_tsc_concat _ (fresh_tsc w) () _ p.tscs rfl]

theorem probe_setup_coef (p : rcar_gen3_thermal_priv) (w : Nat → Nat) :
    (on_tsc (on_tsc
        { tscs := p.tscs ++ [fresh_tsc w], num_tscs := p.num_tscs,
          thermal_init := p.thermal_init, trace := p.trace }
        p.tscs.length () (fun c => ((), p.thermal_init.call c))).2
      p.tscs.length ()
      (fun c => ((), { c with tsc := { c.tsc with
        coef := rcar_gen3_thermal_calc_coefs probe_ptat (probe_thcode p.tscs.length) } }))).2 =
    probe_chan_state p p.tscs.length w 0 := by
  rw [probe_setup_init,
    on_tsc_concat _ (p.thermal_init.call ⟨fresh_tsc w, []⟩).tsc () _ p.tscs rfl]
  have hz : (p.thermal_init.call ⟨fresh_tsc w, []⟩).tsc.zone = 0 :=
    (thermal_init_spec p.thermal_init ⟨fresh_tsc w, []⟩).2.2.2.1
  simp only [probe_chan_state, List.map_nil, List.append_nil]
  rw [hz]

theorem probe_setup_zone (p : rcar_gen3_thermal_priv) (w : Nat → Nat) (z : Nat) :
    (on_tsc (on_tsc (on_tsc
          { tscs := p.tscs ++ [fresh_tsc w], num_tscs := p.num_tscs,
            thermal_init := p.thermal_init, trace := p.trace }
          p.tscs.length () (fun c => ((), p.thermal_init.call c))).2
        p.tscs.length ()
        (fun c => ((), { c with tsc := { c.tsc with
          coef := rcar_gen3_thermal_calc_coefs probe_ptat (probe_thcode p.tscs.length) } }))).2
      p.tscs.length () (fun c => ((), { c with tsc := { c.tsc with zone := z } }))).2 =
    probe_chan_state p p.tscs.length w z := by
  rw [probe_setup_coef]
  unfold probe_chan_state
  rw [on_tsc_concat _ _ () _ p.tscs rfl]
  simp only [List.map_nil, List.append_nil]

theorem probe_loop_succ (pdev : platform_device) (k i : Nat) (p : rcar_gen3_thermal_priv)
    (hlen : p.tscs.length = i) :
    probe_loop pdev (k + 1) i p =
      match (pdev.chan i).res with
      | none => (Except.ok i, p)
      | some w =>
        if !(pdev.chan i).kzalloc_ok then (Except.error (- ENOMEM), p)
        else
          match (pdev.chan i).ioremap_err with
          | some e => (Except.error e, p)
          | none =>
            match (pdev.chan i).zone with
            | Except.error e => (Except.error e, probe_chan_state p i w 0)
            | Except.ok z =>
              if (pdev.chan i).ntrips < 0 then
                (Except.error (pdev.chan i).ntrips, probe_chan_state p i w z)
              else probe_loop pdev k (i + 1) (probe_chan_state p i w z) := by
  subst hlen
  rw [probe_loop]
  cases (pdev.chan p.tscs.length).res with
  | none => rfl
  | some w =>
    simp only
    cases (pdev.chan p.tscs.length).kzalloc_ok with
    | false => rfl
    | true =>
      simp only [Bool.not_true, Bool.false_eq_true, if_false]
      cases (pdev.chan p.tscs.length).ioremap_err with
      | some e => rfl
      | none =>
        simp only
        cases (pdev.chan p.tscs.length).zone with
        | error e => exact congrArg (Prod.mk (Except.error e)) (probe_setup_coef p w)
        | ok z =>
          simp only
          split
          · exact congrArg (Prod.mk _) (probe_setup_zone p w z)
          · exact congrArg (probe_loop pdev k (p.tscs.length + 1)) (probe_setup_zone p w z)

theorem probe_chan_state_spec (p : rcar_gen3_thermal_priv) (i : Nat) (w : Nat → Nat) (z : Nat)
    (h1 : no_armed_write p.trace) (h2 : ∀ t, t ∈ p.tscs → t.low = 0 ∧ t.high = 0) :
    (probe_chan_state p i w z).num_tscs = p.num_tscs ∧
    (probe_chan_state p i w z).thermal_init = p.thermal_init ∧
    (probe_chan_state p i w z).tscs.length = p.tscs.length + 1 ∧
    no_armed_write (probe_chan_state p i w z).trace ∧
    (∀ t, t ∈ (probe_chan_state p i w z).tscs → t.low = 0 ∧ t.high = 0) := by
  obtain ⟨_, s2, s3, _, _, _, _, s8⟩ := thermal_init_spec p.thermal_init ⟨fresh_tsc w, []⟩
  refine ⟨rfl, rfl, by simp [probe_chan_state], ?_, ?_⟩
  · intro j hj
    simp only [probe_chan_state, List.mem_append, List.mem_map] at hj
    rcases hj with hj | ⟨o, ho, hoe⟩
    · exact h1 j hj
    · injection hoe with _ h4
      rcases s8 o ho with h | h
      · simp at h
      · exact h h4
  · intro t ht
    simp only [probe_chan_state, List.mem_append, List.mem_singleton] at ht
    rcases ht with ht | ht
    · exact h2 t ht
    · subst ht
      exact ⟨s2, s3⟩

theorem probe_loop_succ_ok (pdev : platform_device) (k i : Nat) (p : rcar_gen3_thermal_priv)
    (hlen : p.tscs.length = i) (w : Nat → Nat) (hres : (pdev.chan i).res = some w)
    (herr : (pdev.chan i).first_error = none) :
    ∃ z, probe_loop pdev (k + 1) i p = probe_loop pdev k (i + 1) (probe_chan_state p i w z) := by
  rw [probe_loop_succ pdev k i p hlen, hres]
  unfold tsc_resource.first_error at herr
  cases hk : (pdev.chan i).kzalloc_ok with
  | false => rw [hk] at herr; simp at herr
  | true =>
    rw [hk] at herr
    simp only [Bool.not_true, Bool.false_eq_true, if_false] at herr ⊢
    cases hio : (pdev.chan i).ioremap_err with
    | some e => rw [hio] at herr; simp at herr
    | none =>
      rw [hio] at herr
      simp only at herr ⊢
      cases hzn : (pdev.chan i).zone with
      | error e => rw [hzn] at herr; simp at herr
      | ok z =>
        rw [hzn] at herr
        simp only at herr ⊢
        by_cases hn : (pdev.chan i).ntrips < 0
        · rw [if_pos hn] at herr; simp at herr
        · rw [if_neg hn]
          exact ⟨z, rfl⟩

theorem probe_loop_succ_err (pdev : platform_device) (k i : Nat) (p : rcar_gen3_thermal_priv)
    (hlen : p.tscs.length = i) (w : Nat → Nat) (hres : (pdev.chan i).res = some w) (e : Int)
    (herr : (pdev.chan i).first_error = some e) :
    probe_loop pdev (k + 1) i p = (Except.error e, p) ∨
    ∃ z, probe_loop pdev (k + 1) i p = (Except.error e, probe_chan_state p i w z) := by
  rw [probe_loop_succ pdev k i p hlen, hres]
  unfold tsc_resource.first_error at herr
  cases hk : (pdev.chan i).kzalloc_ok with
  | false =>
    rw [hk] at herr
    simp only [Bool.not_false, if_true, Option.some.injEq] at herr ⊢
    rw [herr]
    exact Or.inl rfl
  | true =>
    rw [hk] at herr
    simp only [Bool.not_true, Bool.false_eq_true, if_false] at herr ⊢
    cases hio : (pdev.chan i).ioremap_err with
    | some e' =>
      rw [hio] at herr
      simp only [Option.some.injEq] at herr ⊢
      rw [herr]
      exact Or.inl rfl
    | none =>
      rw [hio] at herr
      simp only at herr ⊢
      cases hzn : (pdev.chan i).zone with
      | error e' =>
        rw [hzn] at herr
        simp only [Option.some.injEq] at herr ⊢
        rw [herr]
        exact Or.inr ⟨0, rfl⟩
      | ok z =>
        rw [hzn] at herr
        simp only at herr ⊢
        by_cases hn : (pdev.chan i).ntrips < 0
        · rw [if_pos hn] at herr ⊢
          simp only [Option.some.injEq] at herr
          rw [herr]
          exact Or.inr ⟨z, rfl⟩
        · rw [if_neg hn] at herr; simp at herr

/-- Whatever the platform answers, the loop of probe keeps the channel count at its initial
value, never writes the armed mask, leaves every threshold at its initial value `0`, and when
it ends normally with loop variable `n` exactly the first `n` slots are filled. -/
theorem probe_loop_inv (pdev : platform_device) :
    ∀ (k i : Nat) (p : rcar_gen3_thermal_priv), p.tscs.length = i →
      no_armed_write p.trace → (∀ t, t ∈ p.tscs → t.low = 0 ∧ t.high = 0) →
      (probe_loop pdev k i p).2.num_tscs = p.num_tscs ∧
      (probe_loop pdev k i p).2.thermal_init = p.thermal_init ∧
      no_armed_write (probe_loop pdev k i p).2.trace ∧
      (∀ t, t ∈ (probe_loop pdev k i p).2.tscs → t.low = 0 ∧ t.high = 0) ∧
      (∀ n, (probe_loop pdev k i p).1 = Except.ok n →
        (probe_loop pdev k i p).2.tscs.length = n ∧ n ≤ i + k) := by
  intro k
  induction k with
  | zero =>
    intro i p hlen h1 h2
    refine ⟨rfl, rfl, h1, h2, ?_⟩
    intro n hn
    have e : (Except.ok i : Except Int Nat) = Except.ok n := hn
    injection e with e
    subst e
    exact ⟨hlen, Nat.le_refl _⟩
  | succ k ih =>
    intro i p hlen h1 h2
    cases hres : (pdev.chan i).res with
    | none =>
      have e : probe_loop pdev (k + 1) i p = (Except.ok i, p) := by
        rw [probe_loop_succ pdev k i p hlen, hres]
      rw [e]
      refine ⟨rfl, rfl, h1, h2, ?_⟩
      intro n hn
      have e' : (Except.ok i : Except Int Nat) = Except.ok n := hn
      injection e' with e'
      subst e'
      exact ⟨hlen, by omega⟩
    | some w =>
      cases hfe : (pdev.chan i).first_error with
      | none =>
        obtain ⟨z, hz⟩ := probe_loop_succ_ok pdev k i p hlen w hres hfe
        obtain ⟨c1, c2, c3, c4, c5⟩ := probe_chan_state_spec p i w z h1 h2
        obtain ⟨j1, j2, j3, j4, j5⟩ := ih (i + 1) (probe_chan_state p i w z)
          (by rw [c3, hlen]) c4 c5
        rw [hz]
        refine ⟨j1.trans c1, j2.trans c2, j3, j4, ?_⟩
        intro n hn
        obtain ⟨a, b⟩ := j5 n hn
        exact ⟨a, by omega⟩
      | some e =>
        rcases probe_loop_succ_err pdev k i p hlen w hres e hfe with h | ⟨z, h⟩
        · rw [h]
          refine ⟨rfl, rfl, h1, h2, ?_⟩
          intro n hn
          exact Except.noConfusion hn
        · obtain ⟨c1, c2, _, c4, c5⟩ := probe_chan_state_spec p i w z h1 h2
          rw [h]
          refine ⟨c1, c2, c4, c5, ?_⟩
          intro n hn
          exact Except.noConfusion hn

/-- The loop of probe leaves by `goto error_unregister` with the error of the first failing
step when the channels before the failing one are present and succeed. -/
theorem probe_loop_error (pdev : platform_device) :
    ∀ (k i : Nat) (p : rcar_gen3_thermal_priv) (f : Nat) (e : Int), p.tscs.length = i →
      i ≤ f → f < i + k →
      (∀ j, i ≤ j → j < f →
        (pdev.chan j).res.isSome = true ∧ (pdev.chan j).first_error = none) →
      (pdev.chan f).res.isSome = true → (pdev.chan f).first_error = some e →
      (probe_loop pdev k i p).1 = Except.error e := by
  intro k
  induction k with
  | zero =>
    intro i p f e _ h1 h2
    omega
  | succ k ih =>
    intro i p f e hlen h1 h2 hok hpres herr
    rcases Nat.eq_or_lt_of_le h1 with hif | hif
    · subst hif
      obtain ⟨w, hw⟩ := Option.isSome_iff_exists.mp hpres
      rcases probe_loop_succ_err pdev k i p hlen w hw e herr with h | ⟨z, h⟩
      · rw [h]
      · rw [h]
    · obtain ⟨hp, hfe⟩ := hok i (Nat.le_refl i) hif
      obtain ⟨w, hw⟩ := Option.isSome_iff_exists.mp hp
      obtain ⟨z, hz⟩ := probe_loop_succ_ok pdev k i p hlen w hw hfe
      rw [hz]
      exact ih (i + 1) (probe_chan_state p i w z) f e (by simp [probe_chan_state, hlen])
        (by omega) (by omega) (fun j hj1 hj2 => hok j (by omega) hj2) hpres herr

/-- The loop of probe ends normally with loop variable `n` when the first `n` channels are
present and succeed and either `n` is the capacity or channel `n` is absent. -/
theorem probe_loop_ok (pdev : platform_device) :
    ∀ (k i : Nat) (p : rcar_gen3_thermal_priv) (n : Nat), p.tscs.length = i →
      i ≤ n → n ≤ i + k →
      (∀ j, i ≤ j → j < n →
        (pdev.chan j).res.isSome = true ∧ (pdev.chan j).first_error = none) →
      (n = i + k ∨ (pdev.chan n).res = none) →
      (probe_loop pdev k i p).1 = Except.ok n := by
  intro k
  induction k with
  | zero =>
    intro i p n _ h1 h2 _ _
    have e : n = i := by omega
    subst e
    rfl
  | succ k ih =>
    intro i p n hlen h1 h2 hok hstop
    rcases Nat.eq_or_lt_of_le h1 with hin | hin
    · subst hin
      rcases hstop with hs | hs
      · omega
      · rw [probe_loop_succ pdev k i p hlen, hs]
    · obtain ⟨hp, hfe⟩ := hok i (Nat.le_refl i) hin
      obtain ⟨w, hw⟩ := Option.isSome_iff_exists.mp hp
      obtain ⟨z, hz⟩ := probe_loop_succ_ok pdev k i p hlen w hw hfe
      rw [hz]
      exact ih (i + 1) (probe_chan_state p i w z) n (by simp [probe_chan_state, hlen])
        (by omega) (by omega) (fun j hj1 hj2 => hok j (by omega) hj2)
        (by rcases hstop with hs | hs
            · exact Or.inl (by omega)
            · exact Or.inr hs)

theorem probe_request_irqs_ok (pdev : platform_device) (h : irqs_obtained pdev) :
    probe_request_irqs pdev = none := by
  obtain ⟨_, h2⟩ := h
  obtain ⟨a0, b0, c0⟩ := h2 0 (by decide)
  obtain ⟨a1, b1, c1⟩ := h2 1 (by decide)
  have e : List.range 2 = [0, 1] := by decide
  unfold probe_request_irqs
  rw [e]
  simp [not_lt.mpr a0, not_lt.mpr a1, b0, b1, c0, c1]

theorem probe_unfold (pdev : platform_device) (h : irqs_obtained pdev) :
    rcar_gen3_thermal_probe pdev =
      match probe_loop pdev TSC_MAX_NUM 0
        (probe_start pdev) with
      | (Except.error ret, priv) => (ret, some (rcar_gen3_thermal_remove priv).2)
      | (Except.ok i, priv) =>
        if i = 0 then
          (- ENODEV, some (rcar_gen3_thermal_remove { priv with num_tscs := i }).2)
        else (0, some (rcar_thermal_irq_set { priv with num_tscs := i } true)) := by
  unfold rcar_gen3_thermal_probe
  rw [h.1, probe_request_irqs_ok pdev h]
  rfl

theorem mask_events_zero (q : rcar_gen3_thermal_priv) (val : Nat) (h0 : q.num_tscs = 0) :
    mask_events q val = [] := by
  unfold mask_events
  rw [h0]
  rfl

/-- With no channel recorded, `rcar_gen3_thermal_remove` writes no register. -/
theorem remove_spec_zero (q : rcar_gen3_thermal_priv) (h0 : q.num_tscs = 0)
    (hna : no_armed_write q.trace) :
    (rcar_gen3_thermal_remove q).2.num_tscs = 0 ∧
    no_armed_write (rcar_gen3_thermal_remove q).2.trace ∧
    (rcar_gen3_thermal_remove q).2.tscs.length = q.tscs.length ∧
    ∀ j : Nat, (rcar_gen3_thermal_remove q).2.tscs[j]? = q.tscs[j]? := by
  obtain ⟨m1, _, m3, m4, m5⟩ := irq_set_false_spec q
  rw [mask_events_zero q 0 h0, List.append_nil] at m3
  refine ⟨m1.trans h0, ?_, m4, ?_⟩
  · intro i hi
    have e : (rcar_gen3_thermal_remove q).2.trace =
        (rcar_thermal_irq_set q false).trace ++ [Event.pm_runtime_put] ++
          [Event.pm_runtime_disable] := rfl
    rw [e, m3] at hi
    simp only [List.mem_append, List.mem_singleton] at hi
    rcases hi with (hi | hi) | hi
    · exact hna i hi
    · exact Event.noConfusion hi
    · exact Event.noConfusion hi
  · intro j
    show (rcar_thermal_irq_set q false).tscs[j]? = _
    rw [m5 j, h0]
    simp

theorem no_armed_write_start (pdev : platform_device) :
    no_armed_write (probe_start pdev).trace := by
  intro i hi
  simp [probe_start, emit] at hi

/-- C8: when the controller state is allocated and both interrupt lines are obtained,
`rcar_gen3_thermal_probe` (i) returns `-ENODEV` when the first channel resource is absent;
(ii) returns the error of the first failing step of a present channel `f < 3` when the channels
before it are present and succeed, with the channel count left at `0` and no armed mask
written; (iii) returns `0` when the first `n` channels (`1 ≤ n ≤ 3`) are present and succeed and
`n = 3` or channel `n` is absent, with the channel count `n`, exactly `n` filled slots, and the
armed mask written last to the mask register of each of the `n` channels. -/
theorem probe_all_or_nothing (pdev : platform_device) (h : irqs_obtained pdev) :
    ((pdev.chan 0).res = none →
      ∃ p, rcar_gen3_thermal_probe pdev = (- ENODEV, some p) ∧ p.num_tscs = 0 ∧
        no_armed_write p.trace) ∧
    (∀ (f : Nat) (e : Int), f < TSC_MAX_NUM →
      (∀ j, j < f → (pdev.chan j).res.isSome = true ∧ (pdev.chan j).first_error = none) →
      (pdev.chan f).res.isSome = true → (pdev.chan f).first_error = some e →
      ∃ p, rcar_gen3_thermal_probe pdev = (e, some p) ∧ p.num_tscs = 0 ∧
        no_armed_write p.trace) ∧
    (∀ n : Nat, 0 < n → n ≤ TSC_MAX_NUM →
      (∀ j, j < n → (pdev.chan j).res.isSome = true ∧ (pdev.chan j).first_error = none) →
      (n = TSC_MAX_NUM ∨ (pdev.chan n).res = none) →
      ∃ p, rcar_gen3_thermal_probe pdev = (0, some p) ∧ p.num_tscs = n ∧ p.tscs.length = n ∧
        (∀ j : Nat, j < n → ∃ t, p.tscs[j]? = some t ∧ t.base REG_GEN3_IRQMSK = 0x0A) ∧
        ∃ tr, no_armed_write tr ∧ p.trace = tr ++
          (List.range n).map (fun i => Event.op i (Op.write REG_GEN3_IRQMSK 0x0A))) := by
  have hun := probe_unfold pdev h
  obtain ⟨i1, _, i3, _, i5⟩ := probe_loop_inv pdev TSC_MAX_NUM 0 (probe_start pdev) rfl
    (no_armed_write_start pdev) (fun t ht => by simp [probe_start, emit] at ht)
  have i1' : (probe_loop pdev TSC_MAX_NUM 0 (probe_start pdev)).2.num_tscs = 0 := i1
  refine ⟨?_, ?_, ?_⟩
  · intro h0
    have hr := probe_loop_ok pdev TSC_MAX_NUM 0 (probe_start pdev) 0 rfl
      (Nat.le_refl 0) (Nat.zero_le _) (fun j hj1 hj2 => absurd hj2 (Nat.not_lt_zero j))
      (Or.inr h0)
    generalize probe_loop pdev TSC_MAX_NUM 0 (probe_start pdev) = r at hun i1' i3 i5 hr
    obtain ⟨res, q⟩ := r
    simp only at hr i1' i3
    subst hr
    simp only [if_true] at hun
    obtain ⟨r1, r2, _, _⟩ := remove_spec_zero { q with num_tscs := 0 } rfl i3
    exact ⟨_, hun, r1, r2⟩
  · intro f e hf hok hpres herr
    have hr := probe_loop_error pdev TSC_MAX_NUM 0 (probe_start pdev) f e rfl
      (Nat.zero_le f) (by omega) (fun j _ hj2 => hok j hj2) hpres herr
    generalize probe_loop pdev TSC_MAX_NUM 0 (probe_start pdev) = r at hun i1' i3 i5 hr
    obtain ⟨res, q⟩ := r
    simp only at hr i1' i3
    subst hr
    simp only at hun
    obtain ⟨r1, r2, _, _⟩ := remove_spec_zero q i1' i3
    exact ⟨_, hun, r1, r2⟩
  · intro n hn0 hn3 hok hstop
    have hr := probe_loop_ok pdev TSC_MAX_NUM 0 (probe_start pdev) n rfl
      (Nat.zero_le n) (by omega) (fun j _ hj2 => hok j hj2)
      (by rcases hstop with hs | hs
          · exact Or.inl (by omega)
          · exact Or.inr hs)
    generalize probe_loop pdev TSC_MAX_NUM 0 (probe_start pdev) = r at hun i1' i3 i5 hr
    obtain ⟨res, q⟩ := r
    simp only at hr i1' i3 i5
    subst hr
    have hne : ¬ n = 0 := by omega
    simp only [hne, if_false] at hun
    obtain ⟨hlen, _⟩ := i5 n rfl
    obtain ⟨m1, _, m3, m4, m5⟩ := irq_set_true_spec { q with num_tscs := n }
    have hwf : ({ q with num_tscs := n } : rcar_gen3_thermal_priv).num_tscs ≤
        ({ q with num_tscs := n } : rcar_gen3_thermal_priv).tscs.length := by
      show n ≤ q.tscs.length
      omega
    rw [mask_events_eq _ armed_mask hwf, armed_mask_eq] at m3
    refine ⟨_, hun, m1, m4.trans hlen, ?_, q.trace, i3, m3⟩
    intro j hj
    rw [m5 j]
    have hlt : j < q.tscs.length := by omega
    have hj' : j < ({ q with num_tscs := n } : rcar_gen3_thermal_priv).num_tscs := hj
    have e : ({ q with num_tscs := n } : rcar_gen3_thermal_priv).tscs[j]? = some q.tscs[j] :=
      List.getElem?_eq_getElem hlt
    simp only [hj', if_true, e, Option.map_some']
    exact ⟨_, rfl, by rw [set_reg_base_eq, armed_mask_eq]⟩

/-- Witness of C8: with three channel resources of which channel 1 fails the registration of
its thermal zone, probe returns that error and records no channel; with three channels that
all succeed it returns `0` and records three channels. -/
theorem probe_all_or_nothing_witness :
    (∃ p, rcar_gen3_thermal_probe (sample_pdev (some 1)) = (-22, some p) ∧ p.num_tscs = 0 ∧
      no_armed_write p.trace) ∧
    (∃ p, rcar_gen3_thermal_probe (sample_pdev none) = (0, some p) ∧ p.num_tscs = 3 ∧
      p.tscs.length = 3 ∧
      (∀ j : Nat, j < 3 → ∃ t, p.tscs[j]? = some t ∧ t.base REG_GEN3_IRQMSK = 0x0A) ∧
      ∃ tr, no_armed_write tr ∧ p.trace = tr ++
        (List.range 3).map (fun i => Event.op i (Op.write REG_GEN3_IRQMSK 0x0A))) :=
  ⟨(probe_all_or_nothing (sample_pdev (some 1))
      ⟨rfl, fun _ _ => ⟨show (0 : Int) ≤ 40 by decide, rfl, rfl⟩⟩).2.1 1 (-22) (by decide) (by decide) (by decide)
      (by decide),
   (probe_all_or_nothing (sample_pdev none)
      ⟨rfl, fun _ _ => ⟨show (0 : Int) ≤ 40 by decide, rfl, rfl⟩⟩).2.2 3 (by decide) (by decide) (by decide)
      (Or.inl rfl)⟩

/-! ## Trip thresholds and resume -/

theorem clamp_val_in_band (x : Int) : in_band (clamp_val x (-40000) 125000) := by
  unfold in_band clamp_val
  omega

theorem clamp_val_of_in_band (x : Int) (h : in_band x) : clamp_val x (-40000) 125000 = x := by
  unfold in_band at h
  unfold clamp_val
  omega

/-- Effect of `rcar_gen3_thermal_set_trips` on a channel. -/
theorem set_trips_spec (c : Chan) (low high : Int) :
    (rcar_gen3_thermal_set_trips c low high).1 = 0 ∧
    (rcar_gen3_thermal_set_trips c low high).2.tsc.low = clamp_val low (-40000) 125000 ∧
    (rcar_gen3_thermal_set_trips c low high).2.tsc.high = clamp_val high (-40000) 125000 ∧
    (rcar_gen3_thermal_set_trips c low high).2.tsc.coef = c.tsc.coef ∧
    (rcar_gen3_thermal_set_trips c low high).2.tsc.zone = c.tsc.zone ∧
    (rcar_gen3_thermal_set_trips c low high).2.log = c.log ++
      [Op.write REG_GEN3_IRQTEMP1 (int_to_u32
          (rcar_gen3_thermal_mcelsius_to_temp c.tsc (clamp_val low (-40000) 125000))),
       Op.write REG_GEN3_IRQTEMP2 (int_to_u32
          (rcar_gen3_thermal_mcelsius_to_temp c.tsc (clamp_val high (-40000) 125000)))] ∧
    (rcar_gen3_thermal_set_trips c low high).2.tsc.base REG_GEN3_IRQTEMP1 =
      int_to_u32 (rcar_gen3_thermal_mcelsius_to_temp c.tsc (clamp_val low (-40000) 125000)) ∧
    (rcar_gen3_thermal_set_trips c low high).2.tsc.base REG_GEN3_IRQTEMP2 =
      int_to_u32 (rcar_gen3_thermal_mcelsius_to_temp c.tsc (clamp_val high (-40000) 125000)) ∧
    (∀ reg, reg ≠ REG_GEN3_IRQTEMP1 → reg ≠ REG_GEN3_IRQTEMP2 →
      (rcar_gen3_thermal_set_trips c low high).2.tsc.base reg = c.tsc.base reg) := by
  refine ⟨rfl, rfl, rfl, rfl, rfl, ?_, ?_, ?_, ?_⟩
  · simp [rcar_gen3_thermal_set_trips, rcar_gen3_thermal_write,
      rcar_gen3_thermal_mcelsius_to_temp]
  · simp [rcar_gen3_thermal_set_trips, rcar_gen3_thermal_write,
      rcar_gen3_thermal_mcelsius_to_temp, Function.update, REG_GEN3_IRQTEMP1,
      REG_GEN3_IRQTEMP2]
  · simp [rcar_gen3_thermal_set_trips, rcar_gen3_thermal_write,
      rcar_gen3_thermal_mcelsius_to_temp, Function.update]
  · intro reg h1 h2
    simp [rcar_gen3_thermal_set_trips, rcar_gen3_thermal_write, Function.update, h1, h2]

/-- Effect of the body of the resume loop on one channel. -/
theorem resume_chan_spec (fn : thermal_init_fn) (t : rcar_gen3_thermal_tsc) :
    (resume_chan fn t).tsc.coef = t.coef ∧ (resume_chan fn t).tsc.zone = t.zone ∧
    (resume_chan fn t).tsc.low = clamp_val t.low (-40000) 125000 ∧
    (resume_chan fn t).tsc.high = clamp_val t.high (-40000) 125000 ∧
    (resume_chan fn t).tsc.base REG_GEN3_IRQTEMP1 =
      int_to_u32 (rcar_gen3_thermal_mcelsius_to_temp t (clamp_val t.low (-40000) 125000)) ∧
    (resume_chan fn t).tsc.base REG_GEN3_IRQTEMP2 =
      int_to_u32 (rcar_gen3_thermal_mcelsius_to_temp t (clamp_val t.high (-40000) 125000)) ∧
    (resume_chan fn t).log = (fn.call ⟨t, []⟩).log ++
      [Op.write REG_GEN3_IRQTEMP1 (int_to_u32
          (rcar_gen3_thermal_mcelsius_to_temp t (clamp_val t.low (-40000) 125000))),
       Op.write REG_GEN3_IRQTEMP2 (int_to_u32
          (rcar_gen3_thermal_mcelsius_to_temp t (clamp_val t.high (-40000) 125000)))] := by
  obtain ⟨s1, s2, s3, s4, _, _, _, _⟩ := thermal_init_spec fn ⟨t, []⟩
  have s1' : (fn.call ⟨t, []⟩).tsc.coef = t.coef := s1
  have s2' : (fn.call ⟨t, []⟩).tsc.low = t.low := s2
  have s3' : (fn.call ⟨t, []⟩).tsc.high = t.high := s3
  have s4' : (fn.call ⟨t, []⟩).tsc.zone = t.zone := s4
  have hmc : ∀ x, rcar_gen3_thermal_mcelsius_to_temp (fn.call ⟨t, []⟩).tsc x =
      rcar_gen3_thermal_mcelsius_to_temp t x := by
    intro x
    unfold rcar_gen3_thermal_mcelsius_to_temp
    rw [s1']
  have hrc : resume_chan fn t =
      ⟨(rcar_gen3_thermal_set_trips ⟨(fn.call ⟨t, []⟩).tsc, []⟩ (fn.call ⟨t, []⟩).tsc.low
          (fn.call ⟨t, []⟩).tsc.high).2.tsc,
        (fn.call ⟨t, []⟩).log ++
          (rcar_gen3_thermal_set_trips ⟨(fn.call ⟨t, []⟩).tsc, []⟩ (fn.call ⟨t, []⟩).tsc.low
            (fn.call ⟨t, []⟩).tsc.high).2.log⟩ := rfl
  rw [hrc, s2', s3']
  obtain ⟨_, r2, r3, r4, r5, r6, r7, r8, _⟩ :=
    set_trips_spec ⟨(fn.call ⟨t, []⟩).tsc, []⟩ t.low t.high
  have r6' : (rcar_gen3_thermal_set_trips ⟨(fn.call ⟨t, []⟩).tsc, []⟩ t.low t.high).2.log =
      [Op.write REG_GEN3_IRQTEMP1 (int_to_u32
          (rcar_gen3_thermal_mcelsius_to_temp t (clamp_val t.low (-40000) 125000))),
       Op.write REG_GEN3_IRQTEMP2 (int_to_u32
          (rcar_gen3_thermal_mcelsius_to_temp t (clamp_val t.high (-40000) 125000)))] := by
    rw [r6, hmc, hmc]
    rfl
  have r7' := r7
  have r8' := r8
  rw [hmc] at r7' r8'
  simp only
  rw [r6']
  exact ⟨r4.trans s1', r5.trans s4', r2, r3, r7', r8', rfl⟩

theorem on_tsc_some {α : Type} (q : rcar_gen3_thermal_priv) (i : Nat) (dflt : α)
    (f : Chan → α × Chan) (t : rcar_gen3_thermal_tsc) (h : q.tscs[i]? = some t) :
    on_tsc q i dflt f =
      ((f ⟨t, []⟩).1,
       { tscs := q.tscs.set i (f ⟨t, []⟩).2.tsc, num_tscs := q.num_tscs,
         thermal_init := q.thermal_init,
         trace := q.trace ++ (f ⟨t, []⟩).2.log.map (Event.op i) }) := by
  unfold on_tsc
  rw [h]

theorem on_tsc_none {α : Type} (q : rcar_gen3_thermal_priv) (i : Nat) (dflt : α)
    (f : Chan → α × Chan) (h : q.tscs[i]? = none) :
    on_tsc q i dflt f = (dflt, q) := by
  unfold on_tsc
  rw [h]

/-- The body of the loop of `rcar_gen3_thermal_resume` is a channel step. -/
theorem resume_body (q : rcar_gen3_thermal_priv) (i : Nat) :
    (on_tsc (on_tsc q i () (fun c => ((), q.thermal_init.call c))).2 i 0
      (fun c => rcar_gen3_thermal_set_trips c c.tsc.low c.tsc.high)).2 =
    chan_step (fun _ t => (resume_chan q.thermal_init t).tsc)
      (fun i t => (resume_chan q.thermal_init t).log.map (Event.op i)) q i := by
  unfold chan_step
  cases h : q.tscs[i]? with
  | none =>
    rw [on_tsc_none q i () _ h]
    simp only
    rw [on_tsc_none q i 0 _ h]
  | some t =>
    have hlen := getElem?_lt_length _ _ _ h
    rw [on_tsc_some q i () _ t h]
    simp only
    rw [on_tsc_some _ i 0 _ (q.thermal_init.call ⟨t, []⟩).tsc
      (by simp [List.getElem?_set, hlen])]
    simp only [List.set_set, resume_chan, List.map_append, List.append_assoc]

/-- Effect of the loop of `rcar_gen3_thermal_resume`. -/
theorem resume_loop_spec (p : rcar_gen3_thermal_priv) :
    ((List.range p.num_tscs).foldl
      (fun p i =>
        (on_tsc (on_tsc p i () (fun c => ((), p.thermal_init.call c))).2 i 0
          (fun c => rcar_gen3_thermal_set_trips c c.tsc.low c.tsc.high)).2) p).num_tscs
      = p.num_tscs ∧
    ((List.range p.num_tscs).foldl
      (fun p i =>
        (on_tsc (on_tsc p i () (fun c => ((), p.thermal_init.call c))).2 i 0
          (fun c => rcar_gen3_thermal_set_trips c c.tsc.low c.tsc.high)).2) p).thermal_init
      = p.thermal_init ∧
    ((List.range p.num_tscs).foldl
      (fun p i =>
        (on_tsc (on_tsc p i () (fun c => ((), p.thermal_init.call c))).2 i 0
          (fun c => rcar_gen3_thermal_set_trips c c.tsc.low c.tsc.high)).2) p).trace
      = p.trace ++ chan_events
          (fun i t => (resume_chan p.thermal_init t).log.map (Event.op i)) p.tscs p.num_tscs ∧
    ((List.range p.num_tscs).foldl
      (fun p i =>
        (on_tsc (on_tsc p i () (fun c => ((), p.thermal_init.call c))).2 i 0
          (fun c => rcar_gen3_thermal_set_trips c c.tsc.low c.tsc.high)).2) p).tscs.length
      = p.tscs.length ∧
    ∀ j : Nat, ((List.range p.num_tscs).foldl
      (fun p i =>
        (on_tsc (on_tsc p i () (fun c => ((), p.thermal_init.call c))).2 i 0
          (fun c => rcar_gen3_thermal_set_trips c c.tsc.low c.tsc.high)).2) p).tscs[j]?
      = if j < p.num_tscs then
          (p.tscs[j]?).map (fun t => (resume_chan p.thermal_init t).tsc)
        else p.tscs[j]? :=
  chan_loop (fun _ t => (resume_chan p.thermal_init t).tsc)
    (fun i t => (resume_chan p.thermal_init t).log.map (Event.op i)) _ p
    (fun q i hq _ => by rw [← hq]; exact resume_body q i) p.num_tscs

theorem in_band_of_map (p q : rcar_gen3_thermal_priv) (n : Nat)
    (g : rcar_gen3_thermal_tsc → rcar_gen3_thermal_tsc)
    (hnum : q.num_tscs ≤ q.tscs.length)
    (hmap : ∀ j : Nat, q.tscs[j]? = if j < n then (p.tscs[j]?).map g else p.tscs[j]?)
    (hg : ∀ t, in_band t.low ∧ in_band t.high → in_band (g t).low ∧ in_band (g t).high)
    (hp : thresholds_in_band p) : thresholds_in_band q := by
  refine ⟨hnum, ?_⟩
  intro j t ht
  rw [hmap j] at ht
  by_cases hj : j < n
  · simp only [hj, if_true] at ht
    cases hpj : p.tscs[j]? with
    | none => rw [hpj] at ht; exact Option.noConfusion ht
    | some t0 =>
      rw [hpj] at ht
      simp only [Option.map_some', Option.some.injEq] at ht
      rw [← ht]
      exact hg t0 (hp.2 j t0 hpj)
  · simp only [hj, if_false] at ht
    exact hp.2 j t ht

theorem in_band_of_set (p : rcar_gen3_thermal_priv) (i : Nat) (t' : rcar_gen3_thermal_tsc)
    (tr : List Event) (ht' : in_band t'.low ∧ in_band t'.high) (hp : thresholds_in_band p) :
    thresholds_in_band
      { tscs := p.tscs.set i t', num_tscs := p.num_tscs, thermal_init := p.thermal_init,
        trace := tr } := by
  refine ⟨by simpa using hp.1, ?_⟩
  intro j t ht
  simp only [List.getElem?_set] at ht
  by_cases hij : i = j
  · simp only [hij, if_true] at ht
    by_cases hlt : j < p.tscs.length
    · simp only [hlt, if_true, Option.some.injEq] at ht
      rw [← ht]
      exact ht'
    · simp only [hlt, if_false] at ht
      exact Option.noConfusion ht
  · simp only [hij, if_false] at ht
    exact hp.2 j t ht

theorem probe_def (pdev : platform_device) :
    rcar_gen3_thermal_probe pdev =
      if !pdev.priv_kzalloc_ok then (- ENOMEM, none)
      else
        match probe_request_irqs pdev with
        | some e => (e, some
            { tscs := [], num_tscs := 0,
              thermal_init :=
                if pdev.soc_match then thermal_init_fn.init_r8a7795es1
                else thermal_init_fn.init,
              trace := [] })
        | none =>
          match probe_loop pdev TSC_MAX_NUM 0 (probe_start pdev) with
          | (Except.error ret, priv) => (ret, some (rcar_gen3_thermal_remove priv).2)
          | (Except.ok i, priv) =>
            if i = 0 then
              (- ENODEV, some (rcar_gen3_thermal_remove { priv with num_tscs := i }).2)
            else (0, some (rcar_thermal_irq_set { priv with num_tscs := i } true)) := by
  rfl

theorem zero_in_band : in_band 0 := by
  unfold in_band
  omega

/-- Whatever probe returns, the controller it leaves satisfies the invariant. -/
theorem probe_thresholds_in_band (pdev : platform_device) (r : Int)
    (p : rcar_gen3_thermal_priv) (h : rcar_gen3_thermal_probe pdev = (r, some p)) :
    thresholds_in_band p := by
  rw [probe_def] at h
  cases hk : pdev.priv_kzalloc_ok with
  | false =>
    rw [hk] at h
    simp only [Bool.not_false, if_true, Prod.mk.injEq] at h
    exact Option.noConfusion h.2
  | true =>
    rw [hk] at h
    simp only [Bool.not_true, Bool.false_eq_true, if_false] at h
    cases hq : probe_request_irqs pdev with
    | some e =>
      rw [hq] at h
      simp only [Prod.mk.injEq, Option.some.injEq] at h
      rw [← h.2]
      exact ⟨Nat.le_refl 0, fun j t ht => by simp at ht⟩
    | none =>
      rw [hq] at h
      simp only at h
      obtain ⟨i1, _, i3, i4, i5⟩ := probe_loop_inv pdev TSC_MAX_NUM 0 (probe_start pdev) rfl
        (no_armed_write_start pdev) (fun t ht => by simp [probe_start, emit] at ht)
      have i1' : (probe_loop pdev TSC_MAX_NUM 0 (probe_start pdev)).2.num_tscs = 0 := i1
      generalize probe_loop pdev TSC_MAX_NUM 0 (probe_start pdev) = res at h i1' i3 i4 i5
      obtain ⟨res, q⟩ := res
      simp only at i1' i3 i4 i5
      have hq0 : ∀ (j : Nat) (t : rcar_gen3_thermal_tsc), q.tscs[j]? = some t →
          in_band t.low ∧ in_band t.high := by
        intro j t ht
        obtain ⟨a, b⟩ := i4 t (List.getElem?_mem ht)
        rw [a, b]
        exact ⟨zero_in_band, zero_in_band⟩
      cases res with
      | error ret =>
        simp only [Prod.mk.injEq, Option.some.injEq] at h
        rw [← h.2]
        obtain ⟨r1, _, _, r4⟩ := remove_spec_zero q i1' i3
        refine ⟨by rw [r1]; exact Nat.zero_le _, ?_⟩
        intro j t ht
        rw [r4 j] at ht
        exact hq0 j t ht
      | ok n =>
        simp only at h
        by_cases hn : n = 0
        · rw [if_pos hn] at h
          simp only [Prod.mk.injEq, Option.some.injEq] at h
          rw [← h.2]
          subst hn
          obtain ⟨r1, _, _, r4⟩ := remove_spec_zero { q with num_tscs := 0 } rfl i3
          refine ⟨by rw [r1]; exact Nat.zero_le _, ?_⟩
          intro j t ht
          rw [r4 j] at ht
          exact hq0 j t ht
        · rw [if_neg hn] at h
          simp only [Prod.mk.injEq, Option.some.injEq] at h
          rw [← h.2]
          obtain ⟨hlen, _⟩ := i5 n rfl
          obtain ⟨m1, _, _, m4, m5⟩ := irq_set_true_spec { q with num_tscs := n }
          have hlen' : ({ q with num_tscs := n } : rcar_gen3_thermal_priv).tscs.length = n :=
            hlen
          have hnum' : ({ q with num_tscs := n } : rcar_gen3_thermal_priv).num_tscs = n := rfl
          exact in_band_of_map { q with num_tscs := n } _ n
            (fun t => set_reg t REG_GEN3_IRQMSK armed_mask)
            (by rw [m1, m4, hlen', hnum']) (fun j => by rw [m5 j, hnum'])
            (fun t ht => ht) ⟨by rw [hlen', hnum'], hq0⟩

theorem length_eq_of_map (l1 l2 : List rcar_gen3_thermal_tsc) (n : Nat)
    (g : rcar_gen3_thermal_tsc → rcar_gen3_thermal_tsc)
    (hmap : ∀ j : Nat, l2[j]? = if j < n then (l1[j]?).map g else l1[j]?) :
    l2.length = l1.length := by
  have key : ∀ j : Nat, l2.length ≤ j ↔ l1.length ≤ j := by
    intro j
    rw [← List.getElem?_eq_none_iff, ← List.getElem?_eq_none_iff, hmap j]
    split
    · cases l1[j]? <;> simp
    · rfl
  have h1 := (key l1.length).mpr (Nat.le_refl _)
  have h2 := (key l2.length).mp (Nat.le_refl _)
  omega

theorem in_band_of_map' (p q : rcar_gen3_thermal_priv) (n : Nat)
    (g : rcar_gen3_thermal_tsc → rcar_gen3_thermal_tsc)
    (hnum : q.num_tscs = p.num_tscs)
    (hmap : ∀ j : Nat, q.tscs[j]? = if j < n then (p.tscs[j]?).map g else p.tscs[j]?)
    (hg : ∀ t, in_band t.low ∧ in_band t.high → in_band (g t).low ∧ in_band (g t).high)
    (hp : thresholds_in_band p) : thresholds_in_band q :=
  in_band_of_map p q n g
    (by rw [hnum, length_eq_of_map p.tscs q.tscs n g hmap]; exact hp.1) hmap hg hp

/-- Every reachable state satisfies the invariant. -/
theorem reachable_thresholds_in_band (p : rcar_gen3_thermal_priv) (h : Reachable p) :
    thresholds_in_band p := by
  induction h with
  | probe pdev p hp => exact probe_thresholds_in_band pdev 0 p hp
  | set_trips p i low high _ _ ih =>
    cases ht : p.tscs[i]? with
    | none => rw [on_tsc_none p i 0 _ ht]; exact ih
    | some t =>
      rw [on_tsc_some p i 0 _ t ht]
      exact in_band_of_set p i _ _
        ⟨clamp_val_in_band low, clamp_val_in_band high⟩ ih
  | get_temp p i temp _ _ ih =>
    cases ht : p.tscs[i]? with
    | none => rw [on_tsc_none p i (0, temp) _ ht]; exact ih
    | some t =>
      rw [on_tsc_some p i (0, temp) _ t ht]
      have e : (rcar_gen3_thermal_get_temp ⟨t, []⟩ temp).2.tsc = t := by
        unfold rcar_gen3_thermal_get_temp rcar_gen3_thermal_read
        simp only
        split <;> rfl
      rw [e]
      exact in_band_of_set p i t _ (ih.2 i t ht) ih
  | irq p _ ih =>
    obtain ⟨hA, hB⟩ := irq_spec p
    by_cases h0 : ∀ i, i < p.num_tscs → irq_status p i = 0
    · obtain ⟨_, a2, _, _, a5⟩ := hA h0
      exact in_band_of_map' p _ p.num_tscs _ a2 a5 (fun t ht => ht) ih
    · have h1 : ∃ i, i < p.num_tscs ∧ irq_status p i ≠ 0 := by
        by_contra hc
        apply h0
        intro i hi
        by_contra hne
        exact hc ⟨i, hi, hne⟩
      obtain ⟨_, b2, _, _, b5⟩ := hB h1
      exact in_band_of_map' p _ p.num_tscs _ b2 b5 (fun t ht => ht) ih
  | irq_thread p _ ih =>
    obtain ⟨_, c2, _, c4⟩ := irq_thread_spec p
    exact in_band_of_map' p _ p.num_tscs _ c2 c4 (fun t ht => ht) ih
  | suspend p _ ih =>
    obtain ⟨m1, _, _, _, m5⟩ := irq_set_false_spec p
    exact in_band_of_map' p _ p.num_tscs _ m1 m5 (fun t ht => ht) ih
  | resume p _ ih =>
    obtain ⟨l1, _, _, _, l5⟩ := resume_loop_spec p
    have hq := in_band_of_map' p _ p.num_tscs _ l1 l5
      (fun t _ => by
        obtain ⟨_, _, r3, r4, _⟩ := resume_chan_spec p.thermal_init t
        rw [r3, r4]
        exact ⟨clamp_val_in_band _, clamp_val_in_band _⟩) ih
    obtain ⟨m1, _, _, _, m5⟩ := irq_set_true_spec ((List.range p.num_tscs).foldl
      (fun p i =>
        (on_tsc (on_tsc p i () (fun c => ((), p.thermal_init.call c))).2 i 0
          (fun c => rcar_gen3_thermal_set_trips c c.tsc.low c.tsc.high)).2) p)
    exact in_band_of_map' _ _ _ _ m1 m5 (fun t ht => ht) hq

/-- C7: in every reachable state `rcar_gen3_thermal_resume` returns `0` and, for each
registered channel, leaves the coefficients, the zone and the stored thresholds (which lie in
`[-40000, 125000]`) unchanged, leaves `rcar_gen3_thermal_mcelsius_to_temp` of the stored low
and high thresholds in the trip registers `IRQTEMP1` and `IRQTEMP2`, and leaves the armed mask
`0x0A` in the interrupt-mask register.  Its events are, channel by channel, the init sequence
followed by the two writes of the trip registers, and at the end the write of the armed mask
to the mask register of every channel. -/
theorem resume_restores (p : rcar_gen3_thermal_priv) (h : Reachable p) :
    (rcar_gen3_thermal_resume p).1 = 0 ∧
    (rcar_gen3_thermal_resume p).2.num_tscs = p.num_tscs ∧
    (∀ i : Nat, i < p.num_tscs →
      ∃ t t', p.tscs[i]? = some t ∧ (rcar_gen3_thermal_resume p).2.tscs[i]? = some t' ∧
        in_band t.low ∧ in_band t.high ∧
        t'.coef = t.coef ∧ t'.zone = t.zone ∧ t'.low = t.low ∧ t'.high = t.high ∧
        t'.base REG_GEN3_IRQTEMP1 =
          int_to_u32 (rcar_gen3_thermal_mcelsius_to_temp t t.low) ∧
        t'.base REG_GEN3_IRQTEMP2 =
          int_to_u32 (rcar_gen3_thermal_mcelsius_to_temp t t.high) ∧
        t'.base REG_GEN3_IRQMSK = 0x0A) ∧
    (rcar_gen3_thermal_resume p).2.trace = p.trace ++
      chan_events
        (fun i t => ((p.thermal_init.call ⟨t, []⟩).log ++
          [Op.write REG_GEN3_IRQTEMP1
              (int_to_u32 (rcar_gen3_thermal_mcelsius_to_temp t t.low)),
           Op.write REG_GEN3_IRQTEMP2
              (int_to_u32 (rcar_gen3_thermal_mcelsius_to_temp t t.high))]).map (Event.op i))
        p.tscs p.num_tscs ++
      (List.range p.num_tscs).map (fun i => Event.op i (Op.write REG_GEN3_IRQMSK 0x0A)) := by
  obtain ⟨hwf, hband⟩ := reachable_thresholds_in_band p h
  obtain ⟨l1, _, l3, l4, l5⟩ := resume_loop_spec p
  have hres : rcar_gen3_thermal_resume p = (0, rcar_thermal_irq_set
      ((List.range p.num_tscs).foldl
        (fun p i =>
          (on_tsc (on_tsc p i () (fun c => ((), p.thermal_init.call c))).2 i 0
            (fun c => rcar_gen3_thermal_set_trips c c.tsc.low c.tsc.high)).2) p) true) := rfl
  rw [hres]
  generalize (List.range p.num_tscs).foldl
    (fun p i =>
      (on_tsc (on_tsc p i () (fun c => ((), p.thermal_init.call c))).2 i 0
        (fun c => rcar_gen3_thermal_set_trips c c.tsc.low c.tsc.high)).2) p = q
    at l1 l3 l4 l5
  obtain ⟨m1, _, m3, _, m5⟩ := irq_set_true_spec q
  refine ⟨rfl, m1.trans l1, ?_, ?_⟩
  · intro i hi
    have hlt : i < p.tscs.length := by omega
    have hpi : p.tscs[i]? = some p.tscs[i] := List.getElem?_eq_getElem hlt
    obtain ⟨hbl, hbh⟩ := hband i _ hpi
    obtain ⟨r1, r2, r3, r4, r5, r6, _⟩ := resume_chan_spec p.thermal_init p.tscs[i]
    rw [clamp_val_of_in_band _ hbl] at r3 r5
    rw [clamp_val_of_in_band _ hbh] at r4 r6
    refine ⟨p.tscs[i], set_reg (resume_chan p.thermal_init p.tscs[i]).tsc REG_GEN3_IRQMSK
      armed_mask, hpi, ?_, hbl, hbh, r1, r2, r3, r4, ?_, ?_, ?_⟩
    · show (rcar_thermal_irq_set q true).tscs[i]? = _
      rw [m5 i, l1, l5 i, hpi]
      simp only [hi, if_true, Option.map_some']
    · rw [set_reg_base_ne _ _ _ _ (by decide), r5]
    · rw [set_reg_base_ne _ _ _ _ (by decide), r6]
    · rw [set_reg_base_eq, armed_mask_eq]
  · show (rcar_thermal_irq_set q true).trace = _
    rw [m3, l3, mask_events_congr q p armed_mask l4 l1, mask_events_eq p armed_mask hwf,
      armed_mask_eq]
    congr 2
    apply chan_events_congr
    intro i hi
    have hlt : i < p.tscs.length := by omega
    rw [List.getElem?_eq_getElem hlt]
    simp only
    obtain ⟨hbl, hbh⟩ := hband i _ (List.getElem?_eq_getElem hlt)
    obtain ⟨_, _, _, _, _, _, r7⟩ := resume_chan_spec p.thermal_init p.tscs[i]
    rw [r7, clamp_val_of_in_band _ hbl, clamp_val_of_in_band _ hbh]

theorem sample_priv_probe :
    rcar_gen3_thermal_probe (sample_pdev none) = (0, some sample_priv) := by
  rfl

theorem sample_suspended_reachable : Reachable sample_suspended :=
  Reachable.suspend _ (Reachable.set_trips sample_priv 0 (-999999) 999999
    (Reachable.probe (sample_pdev none) sample_priv sample_priv_probe) (by decide))

/-- Witness of C7 on a controller with three channels, probed, given out-of-band thresholds
on channel 0 and suspended: resume returns `0`, keeps the three channels, and channel 0 keeps
the clamped thresholds `(-40000, 125000)`. -/
theorem resume_restores_witness :
    (rcar_gen3_thermal_resume sample_suspended).1 = 0 ∧
    (rcar_gen3_thermal_resume sample_suspended).2.num_tscs = sample_suspended.num_tscs ∧
    (∀ i : Nat, i < sample_suspended.num_tscs →
      ∃ t t', sample_suspended.tscs[i]? = some t ∧
        (rcar_gen3_thermal_resume sample_suspended).2.tscs[i]? = some t' ∧
        in_band t.low ∧ in_band t.high ∧
        t'.coef = t.coef ∧ t'.zone = t.zone ∧ t'.low = t.low ∧ t'.high = t.high ∧
        t'.base REG_GEN3_IRQTEMP1 =
          int_to_u32 (rcar_gen3_thermal_mcelsius_to_temp t t.low) ∧
        t'.base REG_GEN3_IRQTEMP2 =
          int_to_u32 (rcar_gen3_thermal_mcelsius_to_temp t t.high) ∧
        t'.base REG_GEN3_IRQMSK = 0x0A) :=
  ⟨(resume_restores sample_suspended sample_suspended_reachable).1,
   (resume_restores sample_suspended sample_suspended_reachable).2.1,
   (resume_restores sample_suspended sample_suspended_reachable).2.2.1⟩

/-! ## Round trip on the fallback calibration -/

theorem all_bits_sound (f : Nat → Bool) (k : Nat) :
    ∀ base, all_bits f k base = true → ∀ r, base ≤ r → r < base + 2 ^ k → f r = true := by
  induction k with
  | zero =>
    intro base h r h1 h2
    have e : r = base := by simp at h2; omega
    rw [e]; exact h
  | succ k ih =>
    intro base h r h1 h2
    simp only [all_bits, Bool.and_eq_true] at h
    rw [pow_succ] at h2
    rcases lt_or_le r (base + 2 ^ k) with h3 | h3
    · exact ih base h.1 r h1 h3
    · exact ih (base + 2 ^ k) h.2 r h3 (by omega)

theorem force_nat_eq (m : Nat) (k : Nat → Bool) : force_nat m k = k m := by
  unfold force_nat
  cases m <;> rfl

theorem s32_natCast (p : Nat) : s32 (p : Int) = to_s32 (p % 4294967296) := by
  unfold s32 to_s32
  split <;> omega

theorem s32_neg_natCast (p : Nat) :
    s32 (-(p : Int)) = to_s32 ((4294967296 - p % 4294967296) % 4294967296) := by
  unfold s32 to_s32
  split <;> omega

theorem s32_to_s32_add (q1 q2 : Nat) :
    s32 (to_s32 q1 + to_s32 q2) = to_s32 ((q1 + q2) % 4294967296) := by
  unfold s32 to_s32
  split <;> split <;> split <;> omega

theorem estimate_u32_lt (reg a b : Nat) : estimate_u32 reg a b < 4294967296 := by
  unfold estimate_u32
  exact lt_of_le_of_lt (Nat.div_le_self _ _) (Nat.mod_lt _ (by norm_num))

/-- One temperature estimate of `rcar_gen3_thermal_get_temp`, as stored in the `int`. -/
theorem estimate_eq (reg a b : Nat) (ha : 0 < a) (ha' : a < 2147483648) :
    s32 (FIXPT_DIV_u32 (u32 (FIXPT_INT_u32 (reg : Int) - u32 (b : Int))) (a : Int)) =
      to_s32 (estimate_u32 reg a b) := by
  have e1 : u32 (FIXPT_INT_u32 (reg : Int) - u32 (b : Int)) =
      ((u32_sub (reg * 128 % 4294967296) b : Nat) : Int) := by
    unfold u32 FIXPT_INT_u32 u32 FIXPT_SHIFT u32_sub
    norm_num
    omega
  have e2 : ∀ x : Nat, u32 ((x : Int) * 2 ^ FIXPT_SHIFT) = ((x * 128 % 4294967296 : Nat) : Int) := by
    intro x
    unfold u32 FIXPT_SHIFT
    norm_num
  have e3 : u32 (s32 ((a : Int).tdiv 2)) = ((a / 2 : Nat) : Int) := by
    rw [tdiv_of_nonneg (by omega) (by norm_num)]
    unfold u32 s32
    omega
  have e4 : u32 (a : Int) = (a : Int) := by
    unfold u32
    omega
  have e5 : ∀ x y : Nat, u32 ((x : Int) + (y : Int)) = (((x + y) % 4294967296 : Nat) : Int) := by
    intro x y
    unfold u32
    omega
  have e6 : ∀ y : Nat, ((y : Int)).tdiv (a : Int) = ((y / a : Nat) : Int) := by
    intro y
    rw [Int.tdiv_eq_ediv (by omega) (by omega)]
    exact (Int.ofNat_ediv y a).symm
  have e7 : u32 ((estimate_u32 reg a b : Nat) : Int) = ((estimate_u32 reg a b : Nat) : Int) := by
    have := estimate_u32_lt reg a b
    unfold u32
    omega
  unfold FIXPT_DIV_u32 DIV_ROUND_CLOSEST_u32
  rw [e1, e2, e3, e4, e5, e6]
  have e8 : (u32_sub (reg * 128 % 4294967296) b * 128 % 4294967296 + a / 2) % 4294967296 / a
      = estimate_u32 reg a b := rfl
  rw [e8, e7]
  have := estimate_u32_lt reg a b
  rw [s32_natCast, Nat.mod_eq_of_lt this]

theorem avg_mul_eq (q1 q2 : Nat) :
    FIXPT_TO_MCELSIUS ((s32 (to_s32 q1 + to_s32 q2)).tdiv 2) =
      to_s32 (avg_mul_u32 q1 q2) / 128 := by
  rw [s32_to_s32_add q1 q2]
  unfold FIXPT_TO_MCELSIUS avg_mul_u32 FIXPT_SHIFT
  have hs : (q1 + q2) % 4294967296 < 4294967296 := Nat.mod_lt _ (by norm_num)
  generalize (q1 + q2) % 4294967296 = s at hs
  have e128 : (2 : Int) ^ 7 = 128 := by norm_num
  rw [e128]
  by_cases hlt : s < 2147483648
  · rw [if_pos hlt]
    have e1 : to_s32 s = (s : Int) := by unfold to_s32; rw [if_pos hlt]
    rw [e1, tdiv_of_nonneg (by omega) (by norm_num)]
    have e2 : (s : Int) / 2 * 1000 = ((s / 2 * 1000 : Nat) : Int) := by push_cast; rfl
    rw [e2, s32_natCast]
  · rw [if_neg hlt]
    have e1 : to_s32 s = (s : Int) - 4294967296 := by unfold to_s32; rw [if_neg hlt]
    rw [e1, tdiv_of_nonpos (by omega) (by norm_num)]
    have e2 : -(-((s : Int) - 4294967296) / 2) * 1000 =
        -(((4294967296 - s) / 2 * 1000 : Nat) : Int) := by
      push_cast
      have : ((4294967296 - s : Nat) : Int) = 4294967296 - (s : Int) := by omega
      rw [this]
      ring_nf
    rw [e2, s32_neg_natCast]

/-- The millicelsius value of `rcar_gen3_thermal_get_temp` from the bit pattern computed on
natural numbers. -/
theorem get_temp_mcelsius_eq (a1 b1 a2 b2 r : Nat) (ha1 : 0 < a1) (ha1' : a1 < 2147483648)
    (ha2 : 0 < a2) (ha2' : a2 < 2147483648) :
    get_temp_mcelsius ⟨a1, b1, a2, b2⟩ r = to_s32 (mcelsius_pattern a1 b1 a2 b2 r) / 128 := by
  have hmask : ((r &&& CTEMP_MASK : Nat) : Int) = ((r % 4096 : Nat) : Int) := by
    have e : CTEMP_MASK = 2 ^ 12 - 1 := by decide
    rw [e, Nat.and_pow_two_sub_one_eq_mod]
  unfold get_temp_mcelsius mcelsius_pattern
  simp only
  rw [hmask, estimate_eq _ a1 b1 ha1 ha1', estimate_eq _ a2 b2 ha2 ha2', avg_mul_eq]

/-- The conversion back to a raw code of the rounding of a nonnegative in-band value. -/
theorem back_to_raw_eq (a1 b1 a2 b2 n : Nat) (ha1 : a1 ≤ 100000) (hb1 : b1 ≤ 1000000000)
    (ha2 : a2 ≤ 100000) (hb2 : b2 ≤ 1000000000) (hn : n ≤ 125000) :
    mcelsius_to_temp ⟨a1, b1, a2, b2⟩ (rcar_gen3_thermal_round (n : Int)) =
      ((back_to_raw a1 b1 a2 b2 n : Nat) : Int) := by
  rw [round_of_nonneg _ (by omega) (by omega)]
  have et : ((n : Int) + 250) / 500 * 500 = (((n + 250) / 500 * 500 : Nat) : Int) := by
    push_cast; rfl
  rw [et]
  have ht : (n + 250) / 500 * 500 ≤ 125000 := by omega
  unfold back_to_raw
  generalize (n + 250) / 500 * 500 = t at ht
  have ec : DIV_ROUND_CLOSEST (t : Int) 1000 = (((t + 500) / 1000 : Nat) : Int) := by
    unfold DIV_ROUND_CLOSEST
    have e500 : s32 ((1000 : Int).tdiv 2) = 500 := by decide
    rw [e500]
    by_cases h0 : t = 0
    · subst h0
      decide
    · have hpos : decide ((t : Int) > 0) = decide ((1000 : Int) > 0) := by
        have h1 : (t : Int) > 0 := by omega
        simp [h1]
      rw [if_pos hpos, s32_eq_self ((t : Int) + 500) (by unfold fits_s32; omega),
        tdiv_of_nonneg (by omega) (by norm_num),
        s32_eq_self _ (by unfold fits_s32; omega)]
      push_cast
      rfl
  unfold mcelsius_to_temp
  simp only
  rw [ec]
  have hc : (t + 500) / 1000 ≤ 125 := by omega
  generalize (t + 500) / 1000 = c at hc
  have hp1 : c * a1 ≤ 125 * 100000 := Nat.mul_le_mul hc ha1
  have hp2 : c * a2 ≤ 125 * 100000 := Nat.mul_le_mul hc ha2
  have e1 : (c : Int) * (a1 : Int) = ((c * a1 : Nat) : Int) := by push_cast; rfl
  have e2 : (c : Int) * (a2 : Int) = ((c * a2 : Nat) : Int) := by push_cast; rfl
  rw [e1, e2]
  generalize c * a1 = p1 at hp1
  generalize c * a2 = p2 at hp2
  rw [s32_eq_self (p1 : Int) (by unfold fits_s32; omega),
    s32_eq_self (p2 : Int) (by unfold fits_s32; omega),
    s32_eq_self ((p1 : Int) + (b1 : Int)) (by unfold fits_s32; omega),
    s32_eq_self ((p2 : Int) + (b2 : Int)) (by unfold fits_s32; omega),
    s32_eq_self _ (by unfold fits_s32; omega),
    tdiv_of_nonneg (by omega) (by norm_num)]
  unfold INT_FIXPT FIXPT_SHIFT
  have e128 : (2 : Int) ^ 7 = 128 := by norm_num
  rw [e128]
  omega

/-- The check on natural numbers implies the check on the embedding of the driver. -/
theorem roundtrip_check_nat_sound (a1 b1 a2 b2 r : Nat) (ha1 : 0 < a1) (ha1' : a1 ≤ 100000)
    (hb1 : b1 ≤ 1000000000) (ha2 : 0 < a2) (ha2' : a2 ≤ 100000) (hb2 : b2 ≤ 1000000000)
    (h : roundtrip_check_nat a1 b1 a2 b2 r = true) :
    roundtrip_check ⟨a1, b1, a2, b2⟩ r = true := by
  unfold roundtrip_check_nat at h
  rw [force_nat_eq] at h
  unfold roundtrip_check_pattern at h
  have hmc := get_temp_mcelsius_eq a1 b1 a2 b2 r ha1 (by omega) ha2 (by omega)
  generalize mcelsius_pattern a1 b1 a2 b2 r = m at h hmc
  by_cases hlt : m < 2147483648
  · rw [if_pos hlt] at h
    have e1 : to_s32 m / 128 = ((m / 128 : Nat) : Int) := by
      unfold to_s32
      rw [if_pos hlt]
      omega
    rw [e1] at hmc
    unfold roundtrip_check
    simp only
    rw [hmc]
    by_cases hgt : m / 128 > 125000
    · have : ((m / 128 : Nat) : Int) < -40000 ∨ ((m / 128 : Nat) : Int) > 125000 :=
        Or.inr (by omega)
      rw [if_pos this]
    · rw [if_neg hgt, force_nat_eq] at h
      have hin : ¬ (((m / 128 : Nat) : Int) < -40000 ∨ ((m / 128 : Nat) : Int) > 125000) := by
        omega
      rw [if_neg hin, back_to_raw_eq a1 b1 a2 b2 (m / 128) ha1' hb1 ha2' hb2 (by omega)]
      simp only [decide_eq_true_eq] at h ⊢
      omega
  · rw [if_neg hlt] at h
    by_cases hgt : (4294967296 - m + 127) / 128 > 40000
    · have e1 : to_s32 m / 128 < -40000 := by
        unfold to_s32
        rw [if_neg hlt]
        omega
      unfold roundtrip_check
      simp only
      rw [hmc, if_pos (Or.inl e1)]
    · rw [if_neg hgt] at h
      exact h

theorem roundtrip_nat_0 :
    all_bits (roundtrip_check_nat 965 323853 952 324352) 12 0 = true := by
  decide!

theorem roundtrip_nat_1 :
    all_bits (roundtrip_check_nat 965 323213 957 323488) 12 0 = true := by
  decide!

theorem roundtrip_nat_2 :
    all_bits (roundtrip_check_nat 947 325163 946 325184) 12 0 = true := by
  decide!

theorem probe_coefs_0 :
    rcar_gen3_thermal_calc_coefs probe_ptat (probe_thcode 0) =
      ⟨((965 : Nat) : Int), ((323853 : Nat) : Int), ((952 : Nat) : Int),
        ((324352 : Nat) : Int)⟩ := by
  decide

theorem probe_coefs_1 :
    rcar_gen3_thermal_calc_coefs probe_ptat (probe_thcode 1) =
      ⟨((965 : Nat) : Int), ((323213 : Nat) : Int), ((957 : Nat) : Int),
        ((323488 : Nat) : Int)⟩ := by
  decide

theorem probe_coefs_2 :
    rcar_gen3_thermal_calc_coefs probe_ptat (probe_thcode 2) =
      ⟨((947 : Nat) : Int), ((325163 : Nat) : Int), ((946 : Nat) : Int),
        ((325184 : Nat) : Int)⟩ := by
  decide

theorem roundtrip_check_probe (i r : Nat) (hr : r < 4096) :
    roundtrip_check (rcar_gen3_thermal_calc_coefs probe_ptat (probe_thcode i)) r = true := by
  have hr' : r < 0 + 2 ^ 12 := by norm_num; exact hr
  match i with
  | 0 =>
    rw [probe_coefs_0]
    exact roundtrip_check_nat_sound 965 323853 952 324352 r (by decide) (by decide) (by decide)
      (by decide) (by decide) (by decide)
      (all_bits_sound _ 12 0 roundtrip_nat_0 r (Nat.zero_le r) hr')
  | 1 =>
    rw [probe_coefs_1]
    exact roundtrip_check_nat_sound 965 323213 957 323488 r (by decide) (by decide) (by decide)
      (by decide) (by decide) (by decide)
      (all_bits_sound _ 12 0 roundtrip_nat_1 r (Nat.zero_le r) hr')
  | k + 2 =>
    have e : probe_thcode (k + 2) = probe_thcode 2 := rfl
    rw [e, probe_coefs_2]
    exact roundtrip_check_nat_sound 947 325163 946 325184 r (by decide) (by decide) (by decide)
      (by decide) (by decide) (by decide)
      (all_bits_sound _ 12 0 roundtrip_nat_2 r (Nat.zero_le r) hr')

theorem get_temp_mcelsius_mask (coef : equation_coefs) (regval : Nat) :
    get_temp_mcelsius coef (regval &&& CTEMP_MASK) = get_temp_mcelsius coef regval := by
  unfold get_temp_mcelsius
  rw [Nat.and_assoc, Nat.and_self]

theorem subzero_check_0 : all_bits (subzero_check 965 323853 952 324352) 12 0 = true := by
  decide!

/-- On channel 0 with the fallback coefficients `rcar_gen3_thermal_get_temp` returns `-EIO`
for every raw code below `2534`, although the signed formula puts the codes from `2233` to
`2533` (the temperatures from -40 to 0 degrees) inside the band. -/
theorem get_temp_below_2534_fails (regval : Nat) (temp : Int)
    (hr : regval &&& CTEMP_MASK < 2534) :
    (rcar_gen3_thermal_get_temp
      ⟨tsc_reading (rcar_gen3_thermal_calc_coefs probe_ptat (probe_thcode 0)) regval, []⟩
      temp).1 = (- EIO, temp) ∧
    (2233 ≤ regval &&& CTEMP_MASK →
      in_band (get_temp_mcelsius_signed (rcar_gen3_thermal_calc_coefs probe_ptat (probe_thcode 0))
        ((regval &&& CTEMP_MASK : Nat) : Int))) := by
  have hlt : regval &&& CTEMP_MASK < 0 + 2 ^ 12 := by omega
  have hk := all_bits_sound _ 12 0 subzero_check_0 (regval &&& CTEMP_MASK) (Nat.zero_le _) hlt
  unfold subzero_check at hk
  rw [if_pos hr, force_nat_eq] at hk
  simp only [Bool.and_eq_true] at hk
  obtain ⟨hk1, hk2⟩ := hk
  have hmc := get_temp_mcelsius_eq 965 323853 952 324352 (regval &&& CTEMP_MASK) (by decide)
    (by decide) (by decide) (by decide)
  rw [← probe_coefs_0, get_temp_mcelsius_mask] at hmc
  rw [← probe_coefs_0] at hk2
  constructor
  · have hout : get_temp_mcelsius (rcar_gen3_thermal_calc_coefs probe_ptat (probe_thcode 0))
        regval < -40000 ∨
        get_temp_mcelsius (rcar_gen3_thermal_calc_coefs probe_ptat (probe_thcode 0))
        regval > 125000 := by
      rw [hmc]
      generalize mcelsius_pattern 965 323853 952 324352 (regval &&& CTEMP_MASK) = m at hk1
      unfold to_s32
      by_cases hm : m < 2147483648
      · rw [if_pos hm] at hk1 ⊢
        simp only [decide_eq_true_eq] at hk1
        right
        omega
      · rw [if_neg hm] at hk1 ⊢
        simp only [decide_eq_true_eq] at hk1
        left
        omega
    simp only [rcar_gen3_thermal_get_temp, rcar_gen3_thermal_read, MCELSIUS_neg_40,
      MCELSIUS_125, tsc_reading]
    rw [if_pos hout]
  · intro h2
    rw [if_pos h2] at hk2
    simp only [decide_eq_true_eq] at hk2
    exact hk2

/-- C6 (as stated, refuted): on channel 0 with the fallback coefficients the raw code `2534`
is read as `500` millicelsius, and `500` millicelsius converts back to `2539`, five codes
away. -/
theorem roundtrip_2534_off_by_5 :
    (rcar_gen3_thermal_get_temp
      ⟨tsc_reading (rcar_gen3_thermal_calc_coefs probe_ptat (probe_thcode 0)) 2534, []⟩ 0).1
      = (0, 500) ∧
    ¬ |rcar_gen3_thermal_mcelsius_to_temp
        (tsc_reading (rcar_gen3_thermal_calc_coefs probe_ptat (probe_thcode 0)) 2534) 500
        - 2534| ≤ 4 := by
  decide

/-- C6 (amended): for each coefficient set derived from the fallback calibration constants and
every content of the temperature register on which `rcar_gen3_thermal_get_temp` succeeds with
value `t`, `rcar_gen3_thermal_mcelsius_to_temp t` differs from the 12-bit raw code by at most
`5` (it lies between the code minus 2 and the code plus 5). -/
theorem roundtrip_within_5 (i : Nat) (c : Chan) (temp t : Int)
    (hc : c.tsc.coef = rcar_gen3_thermal_calc_coefs probe_ptat (probe_thcode i))
    (hs : (rcar_gen3_thermal_get_temp c temp).1 = (0, t)) :
    |rcar_gen3_thermal_mcelsius_to_temp c.tsc t
      - ((c.tsc.base REG_GEN3_TEMP &&& CTEMP_MASK : Nat) : Int)| ≤ 5 ∧
    -2 ≤ rcar_gen3_thermal_mcelsius_to_temp c.tsc t
      - ((c.tsc.base REG_GEN3_TEMP &&& CTEMP_MASK : Nat) : Int) := by
  have hlt : c.tsc.base REG_GEN3_TEMP &&& CTEMP_MASK < 4096 :=
    Nat.and_lt_two_pow _ (by decide : CTEMP_MASK < 2 ^ 12)
  have hk := roundtrip_check_probe i _ hlt
  unfold roundtrip_check at hk
  rw [get_temp_mcelsius_mask, ← hc] at hk
  simp only [rcar_gen3_thermal_get_temp, rcar_gen3_thermal_read, MCELSIUS_neg_40,
    MCELSIUS_125] at hs
  by_cases hb : get_temp_mcelsius c.tsc.coef (c.tsc.base REG_GEN3_TEMP) < -40000 ∨
      get_temp_mcelsius c.tsc.coef (c.tsc.base REG_GEN3_TEMP) > 125000
  · rw [if_pos hb] at hs
    have h1 : (- EIO : Int) = 0 := congrArg Prod.fst hs
    exact absurd h1 (by decide)
  · rw [if_neg hb] at hs
    have h2 : rcar_gen3_thermal_round
        (get_temp_mcelsius c.tsc.coef (c.tsc.base REG_GEN3_TEMP)) = t := congrArg Prod.snd hs
    simp only [hb, if_false, decide_eq_true_eq] at hk
    rw [h2] at hk
    unfold rcar_gen3_thermal_mcelsius_to_temp
    rw [abs_le]
    omega

/-- Witness of C6 (amended) on channel 0 at the raw code `2534`, where the distance is `5`. -/
theorem roundtrip_within_5_witness :
    |rcar_gen3_thermal_mcelsius_to_temp
        (tsc_reading (rcar_gen3_thermal_calc_coefs probe_ptat (probe_thcode 0)) 2534) 500
      - (((tsc_reading (rcar_gen3_thermal_calc_coefs probe_ptat (probe_thcode 0)) 2534).base
          REG_GEN3_TEMP &&& CTEMP_MASK : Nat) : Int)| ≤ 5 ∧
    -2 ≤ rcar_gen3_thermal_mcelsius_to_temp
        (tsc_reading (rcar_gen3_thermal_calc_coefs probe_ptat (probe_thcode 0)) 2534) 500
      - (((tsc_reading (rcar_gen3_thermal_calc_coefs probe_ptat (probe_thcode 0)) 2534).base
          REG_GEN3_TEMP &&& CTEMP_MASK : Nat) : Int) :=
  roundtrip_within_5 0
    ⟨tsc_reading (rcar_gen3_thermal_calc_coefs probe_ptat (probe_thcode 0)) 2534, []⟩ 0 500
    rfl (by decide)

end RcarGen3Thermal
